import Mathlib

/-!
# The Synacor virtual machine of `go-synacor-challenge`

A shallow embedding of `virtualmachine/main.go`: the machine state, operand
resolution (`Dereference`, `ReadValue`, `ReadAsRegNum`), the body of the
fetch/decode/execute loop of `VM.Start` and the constructor `New`; and of
`loadChallenge` in `main.go`.

Conventions.
* A Go `uint16` is a natural number; every operation that can overflow is
  written with an explicit `% 65536`.
* A Go run-time panic (index out of range, integer divide by zero, the explicit
  `panic` of the `default` case) is a `Res.fault`, which records the machine as
  it was when the panic was raised.  `os.Exit(0)` is `Res.exit`.
* Slices are lists; the stack grows at the END of its list, as `append` does.
-/

namespace Synacor

/-! ## Constants -/

def _Halt : Nat := 0
def _Set : Nat := 1
def _Push : Nat := 2
def _Pop : Nat := 3
def _Eq : Nat := 4
def _Gt : Nat := 5
def _Jmp : Nat := 6
def _Jt : Nat := 7
def _Jf : Nat := 8
def _Add : Nat := 9
def _Mult : Nat := 10
def _Mod : Nat := 11
def _And : Nat := 12
def _Or : Nat := 13
def _Not : Nat := 14
def _Rmem : Nat := 15
def _Wmem : Nat := 16
def _Call : Nat := 17
def _Ret : Nat := 18
def _Out : Nat := 19
def _In : Nat := 20
def _Noop : Nat := 21

/-- MaxValue is the max value a value can take before considered special. -/
def MaxValue : Nat := 32768

/-- Number of values of a `uint16`; arithmetic on cells wraps modulo this. -/
def wordModulus : Nat := 65536

/-! ## The stack -/

/-- The Go type `stack []uint16`; the top of the stack is the last element. -/
abbrev stack := List Nat

/-- Go `Push`: `*s = append(*s, v)`. -/
def stack.Push (s : stack) (v : Nat) : stack := s ++ [v]

/-- Go `Pop`: `result := (*s)[len(*s)-1]; *s = (*s)[:len(*s)-1]`.  On the
empty stack the index expression panics, which is `none` here. -/
def stack.Pop (s : stack) : Option (Nat × stack) :=
  match s.getLast? with
  | none => none
  | some result => some (result, s.dropLast)

/-! ## The input reader and the machine -/

/-- The buffer size `bufio.NewReader` gives a reader (`defaultBufSize`). -/
def defaultBufSize : Nat := 4096

/-- The `*bufio.Reader` held in `VM.In`, which `New` creates with
`bufio.NewReader(os.Stdin)`: the bytes the underlying stream still delivers
before end of file. -/
structure Reader where
  pending : List (Fin 256)
deriving DecidableEq

/-- The method `bufio.Reader.Size`: the size of the underlying buffer, which is
`defaultBufSize` for a reader made by `bufio.NewReader`.  It does not depend on
how many bytes are waiting. -/
def Reader.Size (_r : Reader) : Nat := defaultBufSize

/-- The method `bufio.Reader.ReadByte` with its error discarded, as the call
site `char, _ := v.In.ReadByte()` does: the next byte of the stream, or byte 0
at end of file. -/
def Reader.ReadByte (r : Reader) : Fin 256 × Reader :=
  match r.pending with
  | [] => (0, r)
  | c :: rest => (c, { pending := rest })

/-- The Go struct `VM`, without the two log files.  `Stdout` is not a field of
the struct: it is the sequence of characters (code points) the process has
written to standard output so far. -/
structure VM where
  memory : List Nat
  Registers : List Nat
  Stack : stack
  Pointer : Nat
  In : Reader
  Stdout : List Nat
deriving DecidableEq

/-- The ways the Go run time ends the program abnormally. -/
inductive Fault where
  /-- The run-time error: index out of range. -/
  | indexOutOfRange
  /-- The run-time error: integer divide by zero. -/
  | divideByZero
  /-- The explicit `panic(fmt.Sprintf("Read an instruction of %d", opCode))`. -/
  | unknownInstruction (opCode : Nat)
deriving DecidableEq

/-- Result of running a piece of the interpreter on a machine: it returned a
value and left the machine in state `s`; or the process exited with status 0;
or it panicked, the machine being in state `s` at that moment. -/
inductive Res (α : Type) where
  | ok (a : α) (s : VM)
  | exit (s : VM)
  | fault (f : Fault) (s : VM)
deriving DecidableEq

/-- Sequencing: a panic or an exit ends the computation. -/
def Res.andThen {α β : Type} (r : Res α) (k : α → VM → Res β) : Res β :=
  match r with
  | .ok a s => k a s
  | .exit s => .exit s
  | .fault f s => .fault f s

/-! ## Operand resolution -/

/-- Go `GetRegister`: `v.Registers[reg]`, a panic when `reg` is out of range. -/
def GetRegister (v : VM) (reg : Nat) : Except Fault Nat :=
  match v.Registers[reg]? with
  | some x => .ok x
  | none => .error .indexOutOfRange

/-- Go `Dereference`: a value of `MaxValue` or more names register
`val - MaxValue`; a smaller one stands for itself. -/
def Dereference (v : VM) (val : Nat) : Except Fault Nat :=
  if val ≥ MaxValue then
    let reg := val - MaxValue
    GetRegister v reg
  else
    .ok val

/-- Go `ReadValue`: read the cell at `Pointer`, increment `Pointer` (a
`uint16`, so modulo 65536), return the dereferenced value. -/
def ReadValue (v : VM) : Res Nat :=
  match v.memory[v.Pointer]? with
  | none => .fault .indexOutOfRange v
  | some val =>
    let v1 := { v with Pointer := (v.Pointer + 1) % wordModulus }
    match Dereference v1 val with
    | .ok x => .ok x v1
    | .error f => .fault f v1

/-- Go `ReadAsRegNum`: read the cell at `Pointer`, increment `Pointer`, return
`val - MaxValue` computed in `uint16` (so it wraps when `val < MaxValue`). -/
def ReadAsRegNum (v : VM) : Res Nat :=
  match v.memory[v.Pointer]? with
  | none => .fault .indexOutOfRange v
  | some val =>
    let v1 := { v with Pointer := (v.Pointer + 1) % wordModulus }
    .ok ((val + wordModulus - MaxValue) % wordModulus) v1

/-! ## Assignments that can panic -/

/-- The assignment `v.Registers[a] = x`. -/
def setRegister (v : VM) (a x : Nat) : Res Unit :=
  if a < v.Registers.length then
    .ok () { v with Registers := v.Registers.set a x }
  else
    .fault .indexOutOfRange v

/-- The assignment `v.memory[a] = x`. -/
def setMemory (v : VM) (a x : Nat) : Res Unit :=
  if a < v.memory.length then
    .ok () { v with memory := v.memory.set a x }
  else
    .fault .indexOutOfRange v

/-- The call `v.Stack.Pop()`. -/
def popStack (v : VM) : Res Nat :=
  match stack.Pop v.Stack with
  | none => .fault .indexOutOfRange v
  | some (result, rest) => .ok result { v with Stack := rest }

/-- The conversion `string(a)` of a `uint16` to the one character it denotes:
a surrogate code point becomes U+FFFD. -/
def runeOf (a : Nat) : Nat :=
  if 0xD800 ≤ a ∧ a ≤ 0xDFFF then 0xFFFD else a

/-- The text of `fmt.Printf("halt\n")`. -/
def haltText : List Nat := [104, 97, 108, 116, 10]

/-! ## The loop body of `VM.Start` -/

/-- The `switch opCode` of `VM.Start`, one case per branch, in source order. -/
def exec (opCode : Nat) (v : VM) : Res Unit :=
  if opCode = _Halt then
    .exit { v with Stdout := v.Stdout ++ haltText }
  else if opCode = _Set then
    (ReadAsRegNum v).andThen fun a v =>
    (ReadValue v).andThen fun b v =>
    setRegister v a b
  else if opCode = _Push then
    (ReadValue v).andThen fun a v =>
    .ok () { v with Stack := stack.Push v.Stack a }
  else if opCode = _Pop then
    (ReadAsRegNum v).andThen fun a v =>
    (popStack v).andThen fun x v =>
    setRegister v a x
  else if opCode = _Eq then
    (ReadAsRegNum v).andThen fun a v =>
    (ReadValue v).andThen fun b v =>
    (ReadValue v).andThen fun c v =>
    (setRegister v a 0).andThen fun _ v =>
    if b = c then setRegister v a 1 else .ok () v
  else if opCode = _Gt then
    (ReadAsRegNum v).andThen fun a v =>
    (ReadValue v).andThen fun b v =>
    (ReadValue v).andThen fun c v =>
    (setRegister v a 0).andThen fun _ v =>
    if b > c then setRegister v a 1 else .ok () v
  else if opCode = _Jmp then
    (ReadValue v).andThen fun a v =>
    .ok () { v with Pointer := a }
  else if opCode = _Jt then
    (ReadValue v).andThen fun a v =>
    (ReadValue v).andThen fun b v =>
    if a ≠ 0 then .ok () { v with Pointer := b } else .ok () v
  else if opCode = _Jf then
    (ReadValue v).andThen fun a v =>
    (ReadValue v).andThen fun b v =>
    if a = 0 then .ok () { v with Pointer := b } else .ok () v
  else if opCode = _Add then
    (ReadAsRegNum v).andThen fun a v =>
    (ReadValue v).andThen fun b v =>
    (ReadValue v).andThen fun c v =>
    setRegister v a ((b + c) % wordModulus % MaxValue)
  else if opCode = _Mult then
    (ReadAsRegNum v).andThen fun a v =>
    (ReadValue v).andThen fun b v =>
    (ReadValue v).andThen fun c v =>
    setRegister v a ((b * c) % wordModulus % MaxValue)
  else if opCode = _Mod then
    (ReadAsRegNum v).andThen fun a v =>
    (ReadValue v).andThen fun b v =>
    (ReadValue v).andThen fun c v =>
    if c = 0 then .fault .divideByZero v else setRegister v a (b % c)
  else if opCode = _And then
    (ReadAsRegNum v).andThen fun a v =>
    (ReadValue v).andThen fun b v =>
    (ReadValue v).andThen fun c v =>
    setRegister v a (b &&& c)
  else if opCode = _Or then
    (ReadAsRegNum v).andThen fun a v =>
    (ReadValue v).andThen fun b v =>
    (ReadValue v).andThen fun c v =>
    setRegister v a (b ||| c)
  else if opCode = _Not then
    (ReadAsRegNum v).andThen fun a v =>
    (ReadValue v).andThen fun b v =>
    setRegister v a ((0xFFFF ^^^ b) &&& 0x7FFF)
  else if opCode = _Rmem then
    (ReadAsRegNum v).andThen fun a v =>
    (ReadValue v).andThen fun b v =>
    match v.memory[b]? with
    | none => .fault .indexOutOfRange v
    | some x => setRegister v a x
  else if opCode = _Wmem then
    (ReadValue v).andThen fun a v =>
    (ReadValue v).andThen fun b v =>
    setMemory v a b
  else if opCode = _Call then
    (ReadValue v).andThen fun a v =>
    .ok () { v with Stack := stack.Push v.Stack v.Pointer, Pointer := a }
  else if opCode = _Ret then
    (popStack v).andThen fun x v =>
    .ok () { v with Pointer := x }
  else if opCode = _Out then
    (ReadValue v).andThen fun a v =>
    .ok () { v with Stdout := v.Stdout ++ [runeOf a] }
  else if opCode = _In then
    (ReadAsRegNum v).andThen fun a v =>
    if Reader.Size v.In ≠ 0 then
      let r := Reader.ReadByte v.In
      setRegister { v with In := r.2 } a r.1.val
    else
      .ok () v
  else if opCode = _Noop then
    .ok () v
  else
    .fault (.unknownInstruction opCode) v

/-- One iteration of the `for` loop of `VM.Start`: fetch the opcode with
`ReadValue`, then dispatch. -/
def step (v : VM) : Res Unit :=
  (ReadValue v).andThen fun opCode v => exec opCode v

/-- The loop of `VM.Start`, cut off after `fuel` iterations. -/
def Start : Nat → VM → Res Unit
  | 0, v => .ok () v
  | fuel + 1, v =>
    match step v with
    | .ok _ v1 => Start fuel v1
    | .exit v1 => .exit v1
    | .fault f v1 => .fault f v1

/-- Go `New`: the instruction set as memory, 8 zeroed registers, pointer 0, an
empty stack and a fresh reader on standard input, whose content is `stdin`.
Nothing has been printed yet. -/
def New (instructionSet : List Nat) (stdin : List (Fin 256)) : VM :=
  { memory := instructionSet
    Registers := List.replicate 8 0
    Pointer := 0
    Stack := []
    In := { pending := stdin }
    Stdout := [] }

/-- The machine a result ends in: the state returned, the state at exit, or the
state in which the panic was raised. -/
def Res.state {α : Type} : Res α → VM
  | .ok _ s => s
  | .exit s => s
  | .fault _ s => s

/-- The result is a panic, raised while the registers were `regs`. -/
def FaultKeeps (regs : List Nat) (r : Res Unit) : Prop :=
  ∃ f t, r = .fault f t ∧ t.Registers = regs

/-- The opcode the next iteration of the loop dispatches on, when the fetch
succeeds. -/
def fetch (v : VM) : Option Nat :=
  match ReadValue v with
  | .ok opCode _ => some opCode
  | _ => none

/-- The state `u` is reached from `s` by finitely many iterations of the loop,
none of which panics or exits and none of which dispatches on an opcode of
`bad`. -/
inductive ReachesAvoiding (bad : List Nat) : VM → VM → Prop where
  | refl (s : VM) : ReachesAvoiding bad s s
  | tail {s t u : VM} : ReachesAvoiding bad s t →
      (∀ op, fetch t = some op → op ∉ bad) → step t = .ok () u → ReachesAvoiding bad s u

/-- There are 8 registers, each below `B`, and memory cells, stack entries and
the pointer are 16-bit values. -/
def Bounded (B : Nat) (s : VM) : Prop :=
  s.Registers.length = 8 ∧ (∀ r ∈ s.Registers, r < B) ∧ (∀ c ∈ s.memory, c < 65536) ∧
    (∀ c ∈ s.Stack, c < 65536) ∧ s.Pointer < 65536

/-- Every state a result returns satisfies `Q`. -/
def Post (Q : VM → Prop) (r : Res Unit) : Prop := ∀ t, r = .ok () t → Q t

/-- Pushing the elements of `vs` in order. -/
def pushAll (s : stack) (vs : List Nat) : stack := vs.foldl stack.Push s

/-- Popping `n` times, collecting the results in the order they come off. -/
def popN : Nat → stack → Option (List Nat × stack)
  | 0, s => some ([], s)
  | n + 1, s =>
    match stack.Pop s with
    | none => none
    | some (x, s1) =>
      match popN n s1 with
      | none => none
      | some (xs, s2) => some (x :: xs, s2)

/-- An image whose `call` sits `n` no-ops after address 4: a jump over the
`pop r0` at address 2, then `n` no-ops, then `call 2`. -/
def sledImage (n : Nat) : List Nat :=
  [6, 4, 3, 32768] ++ (List.replicate n 21 ++ [17, 2])

/-! ## The program image of `loadChallenge` -/

/-- Go `binary.LittleEndian.Uint16`: `uint16(b[0]) | uint16(b[1])<<8`. -/
def littleEndianUint16 (b0 b1 : Fin 256) : Nat :=
  b0.val ||| (b1.val <<< 8)

/-- The loop of `loadChallenge` on the bytes the file still holds: each
`binary.Read(data, binary.LittleEndian, &i)` takes two bytes and the word is
appended to `memory`; with fewer than two bytes left the read fails (end of
file, or unexpected end of file after one byte) and `memory` is returned. -/
def loadChallengeLoop : List (Fin 256) → List Nat → List Nat
  | b0 :: b1 :: data, memory => loadChallengeLoop data (memory ++ [littleEndianUint16 b0 b1])
  | _, memory => memory

/-- Go `loadChallenge` on a file `challenge.bin` that opens and holds the bytes
`challenge`: the loop started with `var memory []uint16`. -/
def loadChallenge (challenge : List (Fin 256)) : List Nat :=
  loadChallengeLoop challenge []

/-! ## Operand resolution: basic facts -/

theorem Dereference_literal (s : VM) (v : Nat) (h : v < 32768) :
    Dereference s v = .ok v := by
  simp [Dereference, MaxValue, h]

theorem Dereference_register (s : VM) (v x : Nat) (h : 32768 ≤ v)
    (hx : s.Registers[v - 32768]? = some x) : Dereference s v = .ok x := by
  simp [Dereference, MaxValue, GetRegister, h, hx]

theorem Dereference_invalid (s : VM) (v : Nat) (h : 32768 ≤ v)
    (hx : s.Registers.length ≤ v - 32768) :
    Dereference s v = .error .indexOutOfRange := by
  have : s.Registers[v - 32768]? = none := List.getElem?_eq_none hx
  simp [Dereference, MaxValue, GetRegister, h, this]

theorem ReadValue_frame (s : VM) :
    (ReadValue s).state.Registers = s.Registers ∧
    (ReadValue s).state.Stack = s.Stack ∧
    (ReadValue s).state.memory = s.memory ∧
    (ReadValue s).state.In = s.In ∧
    (ReadValue s).state.Stdout = s.Stdout := by
  unfold ReadValue
  cases s.memory[s.Pointer]? with
  | none => simp [Res.state]
  | some val =>
    simp only
    cases Dereference { s with Pointer := (s.Pointer + 1) % wordModulus } val <;>
      simp [Res.state]

/-- C1: on a machine with the 8 registers New gives it, Dereference returns a
raw value below 32768 unchanged, returns the content of register v - 32768 for
v in 32768..32775, and panics (returns no value) for v of 32776 or more; and
ReadValue, which applies it to the fetched cell, leaves registers, stack and
memory as they were, whether it returns or panics. -/
theorem C1_operand_resolution (s : VM) (v : Nat) (h8 : s.Registers.length = 8) :
    (v < 32768 → Dereference s v = .ok v) ∧
    (32768 ≤ v → v ≤ 32775 →
      ∃ x, s.Registers[v - 32768]? = some x ∧ Dereference s v = .ok x) ∧
    (32776 ≤ v → Dereference s v = .error .indexOutOfRange) ∧
    ((ReadValue s).state.Registers = s.Registers ∧
      (ReadValue s).state.Stack = s.Stack ∧
      (ReadValue s).state.memory = s.memory) := by
  refine ⟨Dereference_literal s v, ?_, ?_, ?_⟩
  · intro h1 h2
    have hlt : v - 32768 < s.Registers.length := by omega
    exact ⟨s.Registers[v - 32768], List.getElem?_eq_getElem hlt,
      Dereference_register s v _ h1 (List.getElem?_eq_getElem hlt)⟩
  · intro h1
    exact Dereference_invalid s v (by omega) (by omega)
  · have := ReadValue_frame s
    exact ⟨this.1, this.2.1, this.2.2.1⟩

/-- Witness for C1 on the machine New builds for the empty program: the
register reference 32769 resolves to the content 0 of register 1. -/
theorem C1_operand_resolution_witness :
    (New [] []).Registers.length = 8 ∧
    ∃ x, (New [] []).Registers[32769 - 32768]? = some x ∧
      Dereference (New [] []) 32769 = .ok x :=
  ⟨rfl, (C1_operand_resolution (New [] []) 32769 rfl).2.1 (by decide) (by decide)⟩

/-! ## Stepping lemmas -/

theorem Res.andThen_ok {α β : Type} (a : α) (s : VM) (k : α → VM → Res β) :
    (Res.ok a s).andThen k = k a s := rfl

theorem Res.andThen_fault {α β : Type} (f : Fault) (s : VM) (k : α → VM → Res β) :
    (Res.fault f s : Res α).andThen k = .fault f s := rfl

theorem Dereference_setPointer (s : VM) (p v : Nat) :
    Dereference { s with Pointer := p } v = Dereference s v := rfl

theorem ReadValue_ok (s : VM) (raw x : Nat) (h : s.memory[s.Pointer]? = some raw)
    (hx : Dereference s raw = .ok x) :
    ReadValue s = .ok x { s with Pointer := (s.Pointer + 1) % 65536 } := by
  simp only [ReadValue, h, Dereference_setPointer, hx, wordModulus]

theorem ReadAsRegNum_ok (s : VM) (raw : Nat) (h : s.memory[s.Pointer]? = some raw) :
    ReadAsRegNum s =
      .ok ((raw + 65536 - 32768) % 65536) { s with Pointer := (s.Pointer + 1) % 65536 } := by
  simp only [ReadAsRegNum, h, wordModulus, MaxValue]

/-- Fetching a literal opcode: the loop body dispatches on it with the pointer
moved to the next cell. -/
theorem step_fetch (s : VM) (op : Nat) (h : s.memory[s.Pointer]? = some op)
    (hop : op < 32768) :
    step s = exec op { s with Pointer := (s.Pointer + 1) % 65536 } := by
  simp only [step, ReadValue_ok s op op h (Dereference_literal s op hop), Res.andThen_ok]

theorem pointer_succ (p k : Nat) :
    ((p + k) % 65536 + 1) % 65536 = (p + (k + 1)) % 65536 := by
  omega

/-- Decoding `dest, a, b` after the opcode at `Pointer`: the three reads of a
three-operand instruction whose destination cell names register `d`. -/
theorem decode_dest_a_b (s : VM) (d ra rb x y : Nat)
    (k : Nat → Nat → Nat → VM → Res Unit)
    (hd : s.memory[(s.Pointer + 1) % 65536]? = some (32768 + d)) (hd8 : d < 8)
    (ha : s.memory[(s.Pointer + 2) % 65536]? = some ra)
    (hb : s.memory[(s.Pointer + 3) % 65536]? = some rb)
    (hx : Dereference s ra = .ok x) (hy : Dereference s rb = .ok y) :
    ((ReadAsRegNum { s with Pointer := (s.Pointer + 1) % 65536 }).andThen fun a v =>
      (ReadValue v).andThen fun b v =>
      (ReadValue v).andThen fun c v => k a b c v) =
      k d x y { s with Pointer := (s.Pointer + 4) % 65536 } := by
  have hreg : (32768 + d + 65536 - 32768) % 65536 = d := by omega
  simp only [ReadAsRegNum, ReadValue, wordModulus, MaxValue, hd, Res.andThen_ok, pointer_succ,
    Nat.reduceAdd, ha, hb, Dereference_setPointer, hx, hy, hreg]

/-- Decoding `dest, a` after the opcode at `Pointer`. -/
theorem decode_dest_a (s : VM) (d ra x : Nat) (k : Nat → Nat → VM → Res Unit)
    (hd : s.memory[(s.Pointer + 1) % 65536]? = some (32768 + d)) (hd8 : d < 8)
    (ha : s.memory[(s.Pointer + 2) % 65536]? = some ra)
    (hx : Dereference s ra = .ok x) :
    ((ReadAsRegNum { s with Pointer := (s.Pointer + 1) % 65536 }).andThen fun a v =>
      (ReadValue v).andThen fun b v => k a b v) =
      k d x { s with Pointer := (s.Pointer + 3) % 65536 } := by
  have hreg : (32768 + d + 65536 - 32768) % 65536 = d := by omega
  simp only [ReadAsRegNum, ReadValue, wordModulus, MaxValue, hd, Res.andThen_ok, pointer_succ,
    Nat.reduceAdd, ha, Dereference_setPointer, hx, hreg]

theorem setRegister_ok (s : VM) (a x : Nat) (h : a < s.Registers.length) :
    setRegister s a x = .ok () { s with Registers := s.Registers.set a x } := by
  simp [setRegister, h]

theorem setRegister_fault (s : VM) (a x : Nat) (h : s.Registers.length ≤ a) :
    setRegister s a x = .fault .indexOutOfRange s := by
  simp [setRegister, Nat.not_lt.mpr h]

/-! ### The branches of the switch -/

theorem exec_Eq (v : VM) : exec 4 v =
    (ReadAsRegNum v).andThen fun a v =>
    (ReadValue v).andThen fun b v =>
    (ReadValue v).andThen fun c v =>
    (setRegister v a 0).andThen fun _ v =>
    if b = c then setRegister v a 1 else .ok () v := rfl

theorem exec_Gt (v : VM) : exec 5 v =
    (ReadAsRegNum v).andThen fun a v =>
    (ReadValue v).andThen fun b v =>
    (ReadValue v).andThen fun c v =>
    (setRegister v a 0).andThen fun _ v =>
    if b > c then setRegister v a 1 else .ok () v := rfl

theorem exec_Add (v : VM) : exec 9 v =
    (ReadAsRegNum v).andThen fun a v =>
    (ReadValue v).andThen fun b v =>
    (ReadValue v).andThen fun c v =>
    setRegister v a ((b + c) % wordModulus % MaxValue) := rfl

theorem exec_Mult (v : VM) : exec 10 v =
    (ReadAsRegNum v).andThen fun a v =>
    (ReadValue v).andThen fun b v =>
    (ReadValue v).andThen fun c v =>
    setRegister v a ((b * c) % wordModulus % MaxValue) := rfl

theorem exec_Not (v : VM) : exec 14 v =
    (ReadAsRegNum v).andThen fun a v =>
    (ReadValue v).andThen fun b v =>
    setRegister v a ((0xFFFF ^^^ b) &&& 0x7FFF) := rfl

theorem exec_Halt (v : VM) :
    exec 0 v = .exit { v with Stdout := v.Stdout ++ haltText } := rfl

theorem exec_Set (v : VM) : exec 1 v =
    (ReadAsRegNum v).andThen fun a v =>
    (ReadValue v).andThen fun b v =>
    setRegister v a b := rfl

theorem exec_Pop (v : VM) : exec 3 v =
    (ReadAsRegNum v).andThen fun a v =>
    (popStack v).andThen fun x v =>
    setRegister v a x := rfl

theorem exec_Mod (v : VM) : exec 11 v =
    (ReadAsRegNum v).andThen fun a v =>
    (ReadValue v).andThen fun b v =>
    (ReadValue v).andThen fun c v =>
    if c = 0 then .fault .divideByZero v else setRegister v a (b % c) := rfl

theorem exec_And (v : VM) : exec 12 v =
    (ReadAsRegNum v).andThen fun a v =>
    (ReadValue v).andThen fun b v =>
    (ReadValue v).andThen fun c v =>
    setRegister v a (b &&& c) := rfl

theorem exec_Or (v : VM) : exec 13 v =
    (ReadAsRegNum v).andThen fun a v =>
    (ReadValue v).andThen fun b v =>
    (ReadValue v).andThen fun c v =>
    setRegister v a (b ||| c) := rfl

theorem exec_Rmem (v : VM) : exec 15 v =
    (ReadAsRegNum v).andThen fun a v =>
    (ReadValue v).andThen fun b v =>
    match v.memory[b]? with
    | none => .fault .indexOutOfRange v
    | some x => setRegister v a x := rfl

theorem exec_Out (v : VM) : exec 19 v =
    (ReadValue v).andThen fun a v =>
    .ok () { v with Stdout := v.Stdout ++ [runeOf a] } := rfl

theorem exec_In (v : VM) : exec 20 v =
    (ReadAsRegNum v).andThen fun a v =>
    if Reader.Size v.In ≠ 0 then
      let r := Reader.ReadByte v.In
      setRegister { v with In := r.2 } a r.1.val
    else
      .ok () v := rfl

theorem Reader.Size_ne_zero (r : Reader) : Reader.Size r ≠ 0 := by
  simp [Reader.Size, defaultBufSize]

/-! ### Whole steps of single instructions -/

/-- Decoding the single source operand `a` after the opcode at `Pointer`. -/
theorem decode_a (s : VM) (ra x : Nat) (k : Nat → VM → Res Unit)
    (ha : s.memory[(s.Pointer + 1) % 65536]? = some ra)
    (hx : Dereference s ra = .ok x) :
    ((ReadValue { s with Pointer := (s.Pointer + 1) % 65536 }).andThen fun a v => k a v) =
      k x { s with Pointer := (s.Pointer + 2) % 65536 } := by
  simp only [ReadValue, wordModulus, Res.andThen_ok, pointer_succ,
    Nat.reduceAdd, ha, Dereference_setPointer, hx]

theorem step_Add (s : VM) (d ra rb x y : Nat)
    (hop : s.memory[s.Pointer]? = some 9)
    (hd : s.memory[(s.Pointer + 1) % 65536]? = some (32768 + d))
    (hd8 : d < 8) (hdl : d < s.Registers.length)
    (ha : s.memory[(s.Pointer + 2) % 65536]? = some ra)
    (hb : s.memory[(s.Pointer + 3) % 65536]? = some rb)
    (hx : Dereference s ra = .ok x) (hy : Dereference s rb = .ok y) :
    step s = .ok () { s with
      Registers := s.Registers.set d ((x + y) % 32768)
      Pointer := (s.Pointer + 4) % 65536 } := by
  rw [step_fetch s 9 hop (by decide), exec_Add,
    decode_dest_a_b s d ra rb x y _ hd hd8 ha hb hx hy, setRegister_ok _ _ _ (by exact hdl)]
  have : (x + y) % wordModulus % MaxValue = (x + y) % 32768 := by
    simp only [wordModulus, MaxValue]; omega
  simp only [this]

theorem step_Out (s : VM) (ra x : Nat)
    (hop : s.memory[s.Pointer]? = some 19)
    (ha : s.memory[(s.Pointer + 1) % 65536]? = some ra)
    (hx : Dereference s ra = .ok x) :
    step s = .ok () { s with
      Pointer := (s.Pointer + 2) % 65536
      Stdout := s.Stdout ++ [runeOf x] } := by
  rw [step_fetch s 19 hop (by decide), exec_Out, decode_a s ra x _ ha hx]

theorem step_Halt (s : VM) (hop : s.memory[s.Pointer]? = some 0) :
    step s = .exit { s with
      Pointer := (s.Pointer + 1) % 65536
      Stdout := s.Stdout ++ haltText } := by
  rw [step_fetch s 0 hop (by decide), exec_Halt]

/-! ### The loop -/

theorem Start_zero (v : VM) : Start 0 v = .ok () v := rfl

theorem Start_succ_ok (fuel : Nat) (v v1 : VM) (h : step v = .ok () v1) :
    Start (fuel + 1) v = Start fuel v1 := by
  show (match step v with
    | .ok _ v1 => Start fuel v1
    | .exit v1 => .exit v1
    | .fault f v1 => .fault f v1) = _
  rw [h]

theorem Start_succ_exit (fuel : Nat) (v v1 : VM) (h : step v = .exit v1) :
    Start (fuel + 1) v = .exit v1 := by
  show (match step v with
    | .ok _ v1 => Start fuel v1
    | .exit v1 => .exit v1
    | .fault f v1 => .fault f v1) = _
  rw [h]

/-! ### Panics that leave the registers alone -/

theorem faultKeeps_fault (regs : List Nat) (f : Fault) (s : VM) (hs : s.Registers = regs) :
    FaultKeeps regs (.fault f s) := ⟨f, s, rfl, hs⟩

theorem faultKeeps_setRegister (regs : List Nat) (s : VM) (a x : Nat)
    (hs : s.Registers = regs) (ha : regs.length ≤ a) :
    FaultKeeps regs (setRegister s a x) := by
  rw [setRegister_fault s a x (by rw [hs]; exact ha)]
  exact faultKeeps_fault regs _ s hs

theorem faultKeeps_ReadValue (regs : List Nat) (s : VM) (k : Nat → VM → Res Unit)
    (hs : s.Registers = regs)
    (hk : ∀ x t, t.Registers = regs → FaultKeeps regs (k x t)) :
    FaultKeeps regs ((ReadValue s).andThen k) := by
  unfold ReadValue
  cases s.memory[s.Pointer]? with
  | none => exact faultKeeps_fault regs _ s hs
  | some val =>
    simp only
    cases Dereference { s with Pointer := (s.Pointer + 1) % wordModulus } val with
    | error f => exact faultKeeps_fault regs _ _ hs
    | ok x => exact hk x _ hs

theorem faultKeeps_popStack (regs : List Nat) (s : VM) (k : Nat → VM → Res Unit)
    (hs : s.Registers = regs)
    (hk : ∀ x t, t.Registers = regs → FaultKeeps regs (k x t)) :
    FaultKeeps regs ((popStack s).andThen k) := by
  unfold popStack
  cases stack.Pop s.Stack with
  | none => exact faultKeeps_fault regs _ s hs
  | some p => exact hk p.1 _ hs

/-! ### Arithmetic of the 15-bit value space -/

/-- On a 16-bit value, exclusive or with all ones is subtraction from 65535. -/
theorem xor_allOnes (x : Nat) (h : x < 65536) : 0xFFFF ^^^ x = 65535 - x := by
  apply Nat.eq_of_testBit_eq
  intro i
  have h2 : x < 2 ^ 16 := by omega
  have e1 : (0xFFFF : Nat) = 2 ^ 16 - 1 := by norm_num
  have e2 : 65535 - x = 2 ^ 16 - (x + 1) := by omega
  rw [e2, Nat.testBit_xor, e1, Nat.testBit_two_pow_sub_one, Nat.testBit_two_pow_sub_succ h2]
  by_cases hi : i < 16
  · simp [hi]
  · have : x.testBit i = false := by
      apply Nat.testBit_eq_false_of_lt
      calc x < 2 ^ 16 := h2
        _ ≤ 2 ^ i := Nat.pow_le_pow_right (by decide) (by omega)
    simp [hi, this]

/-- The expression of the `not` branch on a 15-bit value. -/
theorem not_fifteen (x : Nat) (h : x < 32768) : (0xFFFF ^^^ x) &&& 0x7FFF = 32767 - x := by
  rw [xor_allOnes x (by omega)]
  have e : (0x7FFF : Nat) = 2 ^ 15 - 1 := by norm_num
  rw [e, Nat.and_pow_two_sub_one_eq_mod]
  omega

theorem exec_Push (v : VM) : exec 2 v =
    (ReadValue v).andThen fun a v =>
    .ok () { v with Stack := stack.Push v.Stack a } := rfl

theorem exec_Jmp (v : VM) : exec 6 v =
    (ReadValue v).andThen fun a v =>
    .ok () { v with Pointer := a } := rfl

theorem exec_Jt (v : VM) : exec 7 v =
    (ReadValue v).andThen fun a v =>
    (ReadValue v).andThen fun b v =>
    if a ≠ 0 then .ok () { v with Pointer := b } else .ok () v := rfl

theorem exec_Jf (v : VM) : exec 8 v =
    (ReadValue v).andThen fun a v =>
    (ReadValue v).andThen fun b v =>
    if a = 0 then .ok () { v with Pointer := b } else .ok () v := rfl

theorem exec_Wmem (v : VM) : exec 16 v =
    (ReadValue v).andThen fun a v =>
    (ReadValue v).andThen fun b v =>
    setMemory v a b := rfl

theorem exec_Call (v : VM) : exec 17 v =
    (ReadValue v).andThen fun a v =>
    .ok () { v with Stack := stack.Push v.Stack v.Pointer, Pointer := a } := rfl

theorem exec_Ret (v : VM) : exec 18 v =
    (popStack v).andThen fun x v =>
    .ok () { v with Pointer := x } := rfl

theorem exec_Noop (v : VM) : exec 21 v = .ok () v := rfl

theorem exec_unknown (op : Nat) (v : VM) (h : 22 ≤ op) :
    exec op v = .fault (.unknownInstruction op) v := by
  unfold exec
  rw [if_neg (show ¬ op = _Halt by unfold _Halt; omega)]
  rw [if_neg (show ¬ op = _Set by unfold _Set; omega)]
  rw [if_neg (show ¬ op = _Push by unfold _Push; omega)]
  rw [if_neg (show ¬ op = _Pop by unfold _Pop; omega)]
  rw [if_neg (show ¬ op = _Eq by unfold _Eq; omega)]
  rw [if_neg (show ¬ op = _Gt by unfold _Gt; omega)]
  rw [if_neg (show ¬ op = _Jmp by unfold _Jmp; omega)]
  rw [if_neg (show ¬ op = _Jt by unfold _Jt; omega)]
  rw [if_neg (show ¬ op = _Jf by unfold _Jf; omega)]
  rw [if_neg (show ¬ op = _Add by unfold _Add; omega)]
  rw [if_neg (show ¬ op = _Mult by unfold _Mult; omega)]
  rw [if_neg (show ¬ op = _Mod by unfold _Mod; omega)]
  rw [if_neg (show ¬ op = _And by unfold _And; omega)]
  rw [if_neg (show ¬ op = _Or by unfold _Or; omega)]
  rw [if_neg (show ¬ op = _Not by unfold _Not; omega)]
  rw [if_neg (show ¬ op = _Rmem by unfold _Rmem; omega)]
  rw [if_neg (show ¬ op = _Wmem by unfold _Wmem; omega)]
  rw [if_neg (show ¬ op = _Call by unfold _Call; omega)]
  rw [if_neg (show ¬ op = _Ret by unfold _Ret; omega)]
  rw [if_neg (show ¬ op = _Out by unfold _Out; omega)]
  rw [if_neg (show ¬ op = _In by unfold _In; omega)]
  rw [if_neg (show ¬ op = _Noop by unfold _Noop; omega)]

/-! ### Bounds kept by the loop -/

theorem post_ok (Q : VM → Prop) (s : VM) (h : Q s) : Post Q (.ok () s) := by
  intro t ht
  injection ht with _ hs
  exact hs ▸ h

theorem post_fault (Q : VM → Prop) (f : Fault) (s : VM) : Post Q (.fault f s) :=
  fun _ ht => Res.noConfusion ht

theorem post_exit (Q : VM → Prop) (s : VM) : Post Q (.exit s) :=
  fun _ ht => Res.noConfusion ht

theorem Dereference_lt (B : Nat) (s : VM) (raw x : Nat) (hB : 32768 ≤ B)
    (hs : Bounded B s) (h : Dereference s raw = .ok x) : x < B := by
  unfold Dereference at h
  by_cases hr : raw ≥ MaxValue
  · rw [if_pos hr] at h
    simp only [GetRegister] at h
    cases hg : s.Registers[raw - MaxValue]? with
    | none => rw [hg] at h; exact Except.noConfusion h
    | some y =>
      rw [hg] at h
      injection h with hxy
      exact hxy ▸ hs.2.1 y (List.getElem?_mem hg)
  · rw [if_neg hr] at h
    injection h with hxy
    simp only [MaxValue] at hr
    omega

theorem bounded_setPointer (B : Nat) (s : VM) (p : Nat) (hs : Bounded B s) (hp : p < 65536) :
    Bounded B { s with Pointer := p } :=
  ⟨hs.1, hs.2.1, hs.2.2.1, hs.2.2.2.1, hp⟩

theorem post_ReadValue (B : Nat) (Q : VM → Prop) (s : VM) (k : Nat → VM → Res Unit)
    (hB : 32768 ≤ B) (hs : Bounded B s)
    (hk : ∀ x t, Bounded B t → x < B → Post Q (k x t)) :
    Post Q ((ReadValue s).andThen k) := by
  unfold ReadValue
  cases s.memory[s.Pointer]? with
  | none => exact post_fault Q _ _
  | some val =>
    simp only
    cases hd : Dereference { s with Pointer := (s.Pointer + 1) % wordModulus } val with
    | error f => exact post_fault Q _ _
    | ok x =>
      have hb : Bounded B { s with Pointer := (s.Pointer + 1) % wordModulus } :=
        bounded_setPointer B s _ hs (Nat.mod_lt _ (by decide))
      exact hk x _ hb (Dereference_lt B _ val x hB hb hd)

theorem post_ReadAsRegNum (B : Nat) (Q : VM → Prop) (s : VM) (k : Nat → VM → Res Unit)
    (hs : Bounded B s) (hk : ∀ a t, Bounded B t → Post Q (k a t)) :
    Post Q ((ReadAsRegNum s).andThen k) := by
  unfold ReadAsRegNum
  cases s.memory[s.Pointer]? with
  | none => exact post_fault Q _ _
  | some val => exact hk _ _ (bounded_setPointer B s _ hs (Nat.mod_lt _ (by decide)))

theorem post_popStack (B : Nat) (Q : VM → Prop) (s : VM) (k : Nat → VM → Res Unit)
    (hs : Bounded B s) (hk : ∀ x t, Bounded B t → x < 65536 → Post Q (k x t)) :
    Post Q ((popStack s).andThen k) := by
  unfold popStack
  cases hp : stack.Pop s.Stack with
  | none => exact post_fault Q _ _
  | some p =>
    obtain ⟨x, rest⟩ := p
    unfold stack.Pop at hp
    cases hl : s.Stack.getLast? with
    | none => rw [hl] at hp; exact Option.noConfusion hp
    | some y =>
      rw [hl] at hp
      injection hp with hp
      injection hp with hx hrest
      subst hx hrest
      have hy : y ∈ s.Stack := List.mem_of_getLast?_eq_some hl
      refine hk y _ ⟨hs.1, hs.2.1, hs.2.2.1, ?_, hs.2.2.2.2⟩ (hs.2.2.2.1 y hy)
      intro c hc
      exact hs.2.2.2.1 c (List.dropLast_subset _ hc)

theorem post_setRegister (B : Nat) (s : VM) (a x : Nat) (hs : Bounded B s) (hx : x < B) :
    Post (Bounded B) (setRegister s a x) := by
  unfold setRegister
  by_cases ha : a < s.Registers.length
  · rw [if_pos ha]
    refine post_ok _ _ ⟨by simp [hs.1], ?_, hs.2.2.1, hs.2.2.2.1, hs.2.2.2.2⟩
    intro r hr
    rcases List.mem_or_eq_of_mem_set hr with h | h
    · exact hs.2.1 r h
    · exact h ▸ hx
  · rw [if_neg ha]; exact post_fault _ _ _

theorem post_setMemory (B : Nat) (s : VM) (a x : Nat) (hs : Bounded B s) (hx : x < 65536) :
    Post (Bounded B) (setMemory s a x) := by
  unfold setMemory
  by_cases ha : a < s.memory.length
  · rw [if_pos ha]
    refine post_ok _ _ ⟨hs.1, hs.2.1, ?_, hs.2.2.2.1, hs.2.2.2.2⟩
    intro r hr
    rcases List.mem_or_eq_of_mem_set hr with h | h
    · exact hs.2.2.1 r h
    · exact h ▸ hx
  · rw [if_neg ha]; exact post_fault _ _ _


theorem post_setRegister_andThen (B : Nat) (Q : VM → Prop) (s : VM) (a x : Nat)
    (k : Unit → VM → Res Unit) (hs : Bounded B s) (hx : x < B)
    (hk : ∀ t, Bounded B t → Post Q (k () t)) :
    Post Q ((setRegister s a x).andThen k) := by
  intro t ht
  cases hr : setRegister s a x with
  | ok u s1 =>
    rw [hr, Res.andThen_ok] at ht
    exact hk s1 (post_setRegister B s a x hs hx s1 hr) t ht
  | exit s1 => rw [hr] at ht; exact Res.noConfusion ht
  | fault f s1 => rw [hr] at ht; exact Res.noConfusion ht

theorem bounded_push (B : Nat) (s : VM) (x : Nat) (hs : Bounded B s) (hx : x < 65536) :
    Bounded B { s with Stack := stack.Push s.Stack x } := by
  refine ⟨hs.1, hs.2.1, hs.2.2.1, ?_, hs.2.2.2.2⟩
  intro c hc
  rcases List.mem_append.mp hc with h | h
  · exact hs.2.2.2.1 c h
  · rw [List.mem_singleton.mp h]; exact hx

theorem or_lt_bound (B x y : Nat) (hB : B = 32768 ∨ B = 65536) (hx : x < B) (hy : y < B) :
    x ||| y < B := by
  rcases hB with rfl | rfl
  · exact Nat.or_lt_two_pow (n := 15) hx hy
  · exact Nat.or_lt_two_pow (n := 16) hx hy

/-- Every branch of the switch keeps the bounds; the branches `pop` and `rmem`,
which copy a raw 16-bit value into a register, keep only the 16-bit bound. -/
theorem exec_bounded (B op : Nat) (s : VM) (hB : B = 32768 ∨ B = 65536)
    (hs : Bounded B s) (hop : B = 32768 → op ≠ 3 ∧ op ≠ 15) :
    Post (Bounded B) (exec op s) := by
  have hB1 : 32768 ≤ B := by omega
  have hB2 : B ≤ 65536 := by omega
  by_cases h22 : 22 ≤ op
  · rw [exec_unknown op s h22]; exact post_fault _ _ _
  · have hlt : op < 22 := by omega
    interval_cases op
    · rw [exec_Halt]; exact post_exit _ _
    · rw [exec_Set]
      exact post_ReadAsRegNum B _ _ _ hs fun a t ht =>
        post_ReadValue B _ _ _ hB1 ht fun x u hu hx => post_setRegister B u a x hu hx
    · rw [exec_Push]
      exact post_ReadValue B _ _ _ hB1 hs fun x t ht hx =>
        post_ok _ _ (bounded_push B t x ht (by omega))
    · have hB' : B = 65536 := by
        rcases hB with h | h
        · exact absurd rfl (hop h).1
        · exact h
      rw [exec_Pop]
      exact post_ReadAsRegNum B _ _ _ hs fun a t ht =>
        post_popStack B _ _ _ ht fun x u hu hx => post_setRegister B u a x hu (by omega)
    · rw [exec_Eq]
      exact post_ReadAsRegNum B _ _ _ hs fun a t ht =>
        post_ReadValue B _ _ _ hB1 ht fun x u hu _ =>
        post_ReadValue B _ _ _ hB1 hu fun y w hw _ =>
        post_setRegister_andThen B _ w a 0 _ hw (by omega) fun w1 hw1 => by
          by_cases hxy : x = y
          · rw [if_pos hxy]; exact post_setRegister B w1 a 1 hw1 (by omega)
          · rw [if_neg hxy]; exact post_ok _ _ hw1
    · rw [exec_Gt]
      exact post_ReadAsRegNum B _ _ _ hs fun a t ht =>
        post_ReadValue B _ _ _ hB1 ht fun x u hu _ =>
        post_ReadValue B _ _ _ hB1 hu fun y w hw _ =>
        post_setRegister_andThen B _ w a 0 _ hw (by omega) fun w1 hw1 => by
          by_cases hxy : x > y
          · rw [if_pos hxy]; exact post_setRegister B w1 a 1 hw1 (by omega)
          · rw [if_neg hxy]; exact post_ok _ _ hw1
    · rw [exec_Jmp]
      exact post_ReadValue B _ _ _ hB1 hs fun x t ht hx =>
        post_ok _ _ (bounded_setPointer B t x ht (by omega))
    · rw [exec_Jt]
      exact post_ReadValue B _ _ _ hB1 hs fun x t ht _ =>
        post_ReadValue B _ _ _ hB1 ht fun y u hu hy => by
          by_cases hx0 : x ≠ 0
          · rw [if_pos hx0]; exact post_ok _ _ (bounded_setPointer B u y hu (by omega))
          · rw [if_neg hx0]; exact post_ok _ _ hu
    · rw [exec_Jf]
      exact post_ReadValue B _ _ _ hB1 hs fun x t ht _ =>
        post_ReadValue B _ _ _ hB1 ht fun y u hu hy => by
          by_cases hx0 : x = 0
          · rw [if_pos hx0]; exact post_ok _ _ (bounded_setPointer B u y hu (by omega))
          · rw [if_neg hx0]; exact post_ok _ _ hu
    · rw [exec_Add]
      exact post_ReadAsRegNum B _ _ _ hs fun a t ht =>
        post_ReadValue B _ _ _ hB1 ht fun x u hu _ =>
        post_ReadValue B _ _ _ hB1 hu fun y w hw _ =>
        post_setRegister B w a _ hw
          (Nat.lt_of_lt_of_le (Nat.mod_lt _ (by decide)) hB1)
    · rw [exec_Mult]
      exact post_ReadAsRegNum B _ _ _ hs fun a t ht =>
        post_ReadValue B _ _ _ hB1 ht fun x u hu _ =>
        post_ReadValue B _ _ _ hB1 hu fun y w hw _ =>
        post_setRegister B w a _ hw
          (Nat.lt_of_lt_of_le (Nat.mod_lt _ (by decide)) hB1)
    · rw [exec_Mod]
      exact post_ReadAsRegNum B _ _ _ hs fun a t ht =>
        post_ReadValue B _ _ _ hB1 ht fun x u hu hx =>
        post_ReadValue B _ _ _ hB1 hu fun y w hw _ => by
          by_cases hy0 : y = 0
          · rw [if_pos hy0]; exact post_fault _ _ _
          · rw [if_neg hy0]
            exact post_setRegister B w a _ hw (Nat.lt_of_le_of_lt (Nat.mod_le x y) hx)
    · rw [exec_And]
      exact post_ReadAsRegNum B _ _ _ hs fun a t ht =>
        post_ReadValue B _ _ _ hB1 ht fun x u hu hx =>
        post_ReadValue B _ _ _ hB1 hu fun y w hw _ =>
        post_setRegister B w a _ hw (Nat.lt_of_le_of_lt Nat.and_le_left hx)
    · rw [exec_Or]
      exact post_ReadAsRegNum B _ _ _ hs fun a t ht =>
        post_ReadValue B _ _ _ hB1 ht fun x u hu hx =>
        post_ReadValue B _ _ _ hB1 hu fun y w hw hy =>
        post_setRegister B w a _ hw (or_lt_bound B x y hB hx hy)
    · rw [exec_Not]
      exact post_ReadAsRegNum B _ _ _ hs fun a t ht =>
        post_ReadValue B _ _ _ hB1 ht fun x u hu _ =>
        post_setRegister B u a _ hu
          (Nat.lt_of_le_of_lt Nat.and_le_right (by omega))
    · have hB' : B = 65536 := by
        rcases hB with h | h
        · exact absurd rfl (hop h).2
        · exact h
      rw [exec_Rmem]
      exact post_ReadAsRegNum B _ _ _ hs fun a t ht =>
        post_ReadValue B _ _ _ hB1 ht fun x u hu _ => by
          cases hm : u.memory[x]? with
          | none => exact post_fault _ _ _
          | some y =>
            exact post_setRegister B u a y hu
              (by have := hu.2.2.1 y (List.getElem?_mem hm); omega)
    · rw [exec_Wmem]
      exact post_ReadValue B _ _ _ hB1 hs fun x t ht _ =>
        post_ReadValue B _ _ _ hB1 ht fun y u hu hy =>
        post_setMemory B u x y hu (by omega)
    · rw [exec_Call]
      exact post_ReadValue B _ _ _ hB1 hs fun x t ht hx =>
        post_ok _ _ (bounded_setPointer B _ x (bounded_push B t t.Pointer ht ht.2.2.2.2)
          (by omega))
    · rw [exec_Ret]
      exact post_popStack B _ _ _ hs fun x t ht hx =>
        post_ok _ _ (bounded_setPointer B t x ht hx)
    · rw [exec_Out]
      exact post_ReadValue B _ _ _ hB1 hs fun x t ht _ =>
        post_ok _ _ ⟨ht.1, ht.2.1, ht.2.2.1, ht.2.2.2.1, ht.2.2.2.2⟩
    · rw [exec_In]
      exact post_ReadAsRegNum B _ _ _ hs fun a t ht => by
        rw [if_pos (Reader.Size_ne_zero _)]
        exact post_setRegister B _ a _ ⟨ht.1, ht.2.1, ht.2.2.1, ht.2.2.2.1, ht.2.2.2.2⟩
          (by have := (Reader.ReadByte t.In).1.isLt; omega)
    · rw [exec_Noop]; exact post_ok _ _ hs


theorem ReadValue_bounded (B : Nat) (s t : VM) (x : Nat) (hB : 32768 ≤ B)
    (hs : Bounded B s) (h : ReadValue s = .ok x t) : Bounded B t ∧ x < B := by
  unfold ReadValue at h
  cases hm : s.memory[s.Pointer]? with
  | none => rw [hm] at h; exact Res.noConfusion h
  | some val =>
    rw [hm] at h
    simp only at h
    have hb : Bounded B { s with Pointer := (s.Pointer + 1) % wordModulus } :=
      bounded_setPointer B s _ hs (Nat.mod_lt _ (by decide))
    cases hd : Dereference { s with Pointer := (s.Pointer + 1) % wordModulus } val with
    | error f => rw [hd] at h; exact Res.noConfusion h
    | ok y =>
      rw [hd] at h
      injection h with hxy hst
      subst hxy hst
      exact ⟨hb, Dereference_lt B _ val y hB hb hd⟩

/-- One iteration of the loop keeps the bounds, the 15-bit register bound as
long as the opcode dispatched on is neither `pop` nor `rmem`. -/
theorem step_bounded (B : Nat) (s t : VM) (hB : B = 32768 ∨ B = 65536)
    (hs : Bounded B s) (hop : B = 32768 → ∀ op, fetch s = some op → op ≠ 3 ∧ op ≠ 15)
    (hstep : step s = .ok () t) : Bounded B t := by
  unfold step at hstep
  cases hr : ReadValue s with
  | ok op s1 =>
    have hf : fetch s = some op := by simp only [fetch, hr]
    rw [hr, Res.andThen_ok] at hstep
    have hb1 := (ReadValue_bounded B s s1 op (by omega) hs hr).1
    exact exec_bounded B op s1 hB hb1 (fun h => hop h op hf) t hstep
  | exit s1 => rw [hr] at hstep; exact Res.noConfusion hstep
  | fault f s1 => rw [hr] at hstep; exact Res.noConfusion hstep

theorem reaches_bounded (B : Nat) (bad : List Nat) (s t : VM) (hB : B = 32768 ∨ B = 65536)
    (hbad : B = 32768 → 3 ∈ bad ∧ 15 ∈ bad) (hs : Bounded B s)
    (h : ReachesAvoiding bad s t) : Bounded B t := by
  induction h with
  | refl => exact hs
  | tail _ hav hstep ih =>
    refine step_bounded B _ _ hB ih (fun hB15 op hf => ?_) hstep
    have hn := hav op hf
    constructor
    · rintro rfl; exact hn (hbad hB15).1
    · rintro rfl; exact hn (hbad hB15).2

theorem New_bounded (image : List Nat) (stdin : List (Fin 256))
    (himg : ∀ c ∈ image, c < 65536) : Bounded 32768 (New image stdin) := by
  refine ⟨rfl, ?_, himg, ?_, Nat.zero_lt_succ 65535⟩
  · intro r hr
    rw [List.eq_of_mem_replicate hr]
    decide
  · intro c hc
    exact absurd hc (List.not_mem_nil c)

theorem bounded_mono (s : VM) (hs : Bounded 32768 s) : Bounded 65536 s :=
  ⟨hs.1, fun r hr => Nat.lt_trans (hs.2.1 r hr) (by decide), hs.2.2⟩

/-! ### Stack facts -/

theorem stack.Pop_Push (s : stack) (v : Nat) : stack.Pop (stack.Push s v) = some (v, s) := by
  simp [stack.Pop, stack.Push]

theorem pushAll_append (s : stack) (vs : List Nat) (v : Nat) :
    pushAll s (vs ++ [v]) = stack.Push (pushAll s vs) v := by
  simp [pushAll, List.foldl_append]

/-! ### A return address in a register -/

theorem sledImage_noop (n i : Nat) (h : i < n) : (sledImage n)[4 + i]? = some 21 := by
  unfold sledImage
  rw [List.getElem?_append_right (Nat.le_add_right 4 i)]
  have e : 4 + i - [6, 4, 3, 32768].length = i := by
    show 4 + i - 4 = i; omega
  rw [e, List.getElem?_append_left (by rw [List.length_replicate]; exact h)]
  rw [List.getElem?_replicate, if_pos h]

theorem sledImage_call (n : Nat) :
    (sledImage n)[4 + n]? = some 17 ∧ (sledImage n)[4 + n + 1]? = some 2 := by
  unfold sledImage
  constructor
  · rw [List.getElem?_append_right (Nat.le_add_right 4 n)]
    have e : 4 + n - [6, 4, 3, 32768].length = n := by
      show 4 + n - 4 = n; omega
    rw [e, List.getElem?_append_right (by rw [List.length_replicate])]
    rw [List.length_replicate, Nat.sub_self]
    rfl
  · rw [List.getElem?_append_right (by show 4 ≤ 4 + n + 1; omega)]
    have e : 4 + n + 1 - [6, 4, 3, 32768].length = n + 1 := by
      show 4 + n + 1 - 4 = n + 1; omega
    rw [e, List.getElem?_append_right (by rw [List.length_replicate]; omega)]
    rw [List.length_replicate, Nat.add_sub_cancel_left]
    rfl

theorem step_Noop (s : VM) (hop : s.memory[s.Pointer]? = some 21) :
    step s = .ok () { s with Pointer := (s.Pointer + 1) % 65536 } := by
  rw [step_fetch s 21 hop (by decide), exec_Noop]

theorem step_Jmp (s : VM) (ra x : Nat)
    (hop : s.memory[s.Pointer]? = some 6)
    (ha : s.memory[(s.Pointer + 1) % 65536]? = some ra)
    (hx : Dereference s ra = .ok x) :
    step s = .ok () { s with Pointer := x } := by
  rw [step_fetch s 6 hop (by decide), exec_Jmp, decode_a s ra x _ ha hx]

theorem step_Call (s : VM) (ra x : Nat)
    (hop : s.memory[s.Pointer]? = some 17)
    (ha : s.memory[(s.Pointer + 1) % 65536]? = some ra)
    (hx : Dereference s ra = .ok x) :
    step s = .ok () { s with
      Stack := stack.Push s.Stack ((s.Pointer + 2) % 65536)
      Pointer := x } := by
  rw [step_fetch s 17 hop (by decide), exec_Call, decode_a s ra x _ ha hx]

theorem step_Pop (s : VM) (d x : Nat) (rest : stack)
    (hop : s.memory[s.Pointer]? = some 3)
    (hd : s.memory[(s.Pointer + 1) % 65536]? = some (32768 + d))
    (hd8 : d < 8) (hdl : d < s.Registers.length)
    (hpop : stack.Pop s.Stack = some (x, rest)) :
    step s = .ok () { s with
      Registers := s.Registers.set d x
      Stack := rest
      Pointer := (s.Pointer + 2) % 65536 } := by
  have hreg : (32768 + d + 65536 - 32768) % 65536 = d := by omega
  rw [step_fetch s 3 hop (by decide), exec_Pop, ReadAsRegNum_ok _ _ hd, hreg, Res.andThen_ok]
  simp only [popStack, hpop, Res.andThen_ok, pointer_succ, Nat.reduceAdd]
  rw [setRegister_ok _ _ _ (by exact hdl)]

theorem fetch_literal (s : VM) (op : Nat) (hop : s.memory[s.Pointer]? = some op)
    (h : op < 32768) : fetch s = some op := by
  simp only [fetch, ReadValue_ok s op op hop (Dereference_literal s op h)]

theorem ReachesAvoiding.trans {bad : List Nat} {s t u : VM}
    (h1 : ReachesAvoiding bad s t) (h2 : ReachesAvoiding bad t u) : ReachesAvoiding bad s u := by
  induction h2 with
  | refl => exact h1
  | tail _ hav hstep ih => exact .tail ih hav hstep

/-- One more iteration, on a literal opcode that is allowed. -/
theorem ReachesAvoiding.literal {bad : List Nat} {s t u : VM} (op : Nat)
    (h : ReachesAvoiding bad s t) (hop : t.memory[t.Pointer]? = some op) (hlt : op < 32768)
    (hbad : op ∉ bad) (hstep : step t = .ok () u) : ReachesAvoiding bad s u := by
  refine .tail h (fun o hf => ?_) hstep
  rw [fetch_literal t op hop hlt] at hf
  injection hf with hf
  exact hf ▸ hbad

/-- A run of no-ops moves the pointer along and changes nothing else. -/
theorem reaches_noops (bad : List Nat) (hbad : 21 ∉ bad) (s : VM) (n : Nat)
    (hn : s.Pointer + n < 65536)
    (hmem : ∀ i, i < n → s.memory[s.Pointer + i]? = some 21) :
    ReachesAvoiding bad s { s with Pointer := s.Pointer + n } := by
  induction n with
  | zero => exact .refl s
  | succ n ih =>
    have h1 := ih (by omega) (fun i hi => hmem i (by omega))
    have hop : ({ s with Pointer := s.Pointer + n } : VM).memory[
        ({ s with Pointer := s.Pointer + n } : VM).Pointer]? = some 21 := hmem n (by omega)
    refine .literal 21 h1 hop (by decide) hbad ?_
    rw [step_Noop _ hop]
    have : (s.Pointer + n + 1) % 65536 = s.Pointer + (n + 1) := by omega
    simp only [this]

theorem sledImage_head (n : Nat) :
    (sledImage n)[0]? = some 6 ∧ (sledImage n)[1]? = some 4 ∧
    (sledImage n)[2]? = some 3 ∧ (sledImage n)[3]? = some 32768 := by
  simp [sledImage]

/-- On the sled image the return address `n + 6` pushed by `call` is popped
into register 0, without any `rmem`. -/
theorem sled_pops_return_address (n : Nat) (stdin : List (Fin 256)) (hn : n + 6 < 65536) :
    ReachesAvoiding [15] (New (sledImage n) stdin)
      { memory := sledImage n
        Registers := [n + 6, 0, 0, 0, 0, 0, 0, 0]
        Stack := []
        Pointer := 4
        In := { pending := stdin }
        Stdout := [] } := by
  have hh := sledImage_head n
  have hc := sledImage_call n
  have e1 : (4 + n + 1) % 65536 = 4 + n + 1 := by omega
  have e2 : (4 + n + 2) % 65536 = n + 6 := by omega
  have r1 : ReachesAvoiding [15] (New (sledImage n) stdin)
      { memory := sledImage n
        Registers := List.replicate 8 0
        Stack := []
        Pointer := 4
        In := { pending := stdin }
        Stdout := [] } :=
    .literal 6 (.refl _) hh.1 (by decide) (by decide)
      (step_Jmp (New (sledImage n) stdin) 4 4 hh.1 hh.2.1 rfl)
  have r2 : ReachesAvoiding [15] (New (sledImage n) stdin)
      { memory := sledImage n
        Registers := List.replicate 8 0
        Stack := []
        Pointer := 4 + n
        In := { pending := stdin }
        Stdout := [] } :=
    r1.trans (reaches_noops [15] (by decide) _ n (by show 4 + n < 65536; omega)
      (fun i hi => sledImage_noop n i hi))
  have s3 : step { memory := sledImage n
                   Registers := List.replicate 8 0
                   Stack := []
                   Pointer := 4 + n
                   In := { pending := stdin }
                   Stdout := [] } =
      .ok () { memory := sledImage n
               Registers := List.replicate 8 0
               Stack := [n + 6]
               Pointer := 2
               In := { pending := stdin }
               Stdout := [] } := by
    rw [step_Call _ 2 2 hc.1 (by show (sledImage n)[(4 + n + 1) % 65536]? = some 2
                                 rw [e1]; exact hc.2) rfl]
    show Res.ok () { memory := sledImage n
                     Registers := List.replicate 8 0
                     Stack := stack.Push [] ((4 + n + 2) % 65536)
                     Pointer := 2
                     In := { pending := stdin }
                     Stdout := [] } = _
    rw [e2]
    rfl
  have r3 := ReachesAvoiding.literal 17 r2 hc.1 (by decide) (by decide) s3
  have s4 : step { memory := sledImage n
                   Registers := List.replicate 8 0
                   Stack := [n + 6]
                   Pointer := 2
                   In := { pending := stdin }
                   Stdout := [] } =
      .ok () { memory := sledImage n
               Registers := [n + 6, 0, 0, 0, 0, 0, 0, 0]
               Stack := []
               Pointer := 4
               In := { pending := stdin }
               Stdout := [] } :=
    step_Pop _ 0 (n + 6) [] hh.2.2.1 hh.2.2.2 (by decide) (Nat.zero_lt_succ 7)
      (stack.Pop_Push [] (n + 6))
  exact ReachesAvoiding.literal 3 r3 hh.2.2.1 (by decide) (by decide) s4

/-! ## Arithmetic and comparison instructions -/

/-- C2: when the cell at the pointer is opcode 9 (add), the next cell names
register d and the two source cells resolve to x and y, one step succeeds,
writes (x + y) mod 32768, over the natural numbers, into register d and nothing
else, and moves the pointer 4 cells on; register d then holds that value. -/
theorem C2_add (s : VM) (d ra rb x y : Nat)
    (hop : s.memory[s.Pointer]? = some 9)
    (hd : s.memory[(s.Pointer + 1) % 65536]? = some (32768 + d))
    (hd8 : d < 8) (hdl : d < s.Registers.length)
    (ha : s.memory[(s.Pointer + 2) % 65536]? = some ra)
    (hb : s.memory[(s.Pointer + 3) % 65536]? = some rb)
    (hx : Dereference s ra = .ok x) (hy : Dereference s rb = .ok y) :
    step s = .ok () { s with
      Registers := s.Registers.set d ((x + y) % 32768)
      Pointer := (s.Pointer + 4) % 65536 } ∧
    (s.Registers.set d ((x + y) % 32768))[d]? = some ((x + y) % 32768) := by
  refine ⟨step_Add s d ra rb x y hop hd hd8 hdl ha hb hx hy, ?_⟩
  simp [hdl]

/-- Witness for C2: `add r0, r1, 4` on the machine New builds. -/
theorem C2_add_witness :
    step (New [9, 32768, 32769, 4] []) = .ok () { New [9, 32768, 32769, 4] [] with
      Registers := (New [9, 32768, 32769, 4] []).Registers.set 0 ((0 + 4) % 32768)
      Pointer := (0 + 4) % 65536 } ∧
    ((New [9, 32768, 32769, 4] []).Registers.set 0 ((0 + 4) % 32768))[0]? =
      some ((0 + 4) % 32768) :=
  C2_add (New [9, 32768, 32769, 4] []) 0 32769 4 0 4 rfl rfl (by decide) (by decide)
    rfl rfl rfl rfl

/-- C3: when the cell at the pointer is opcode 10 (mult), the next cell names
register d and the two source cells resolve to x and y, one step succeeds and
writes (x * y) mod 32768, the product taken over the natural numbers, into
register d, although the code reduces the product modulo 65536 first. -/
theorem C3_mult (s : VM) (d ra rb x y : Nat)
    (hop : s.memory[s.Pointer]? = some 10)
    (hd : s.memory[(s.Pointer + 1) % 65536]? = some (32768 + d))
    (hd8 : d < 8) (hdl : d < s.Registers.length)
    (ha : s.memory[(s.Pointer + 2) % 65536]? = some ra)
    (hb : s.memory[(s.Pointer + 3) % 65536]? = some rb)
    (hx : Dereference s ra = .ok x) (hy : Dereference s rb = .ok y) :
    step s = .ok () { s with
      Registers := s.Registers.set d ((x * y) % 32768)
      Pointer := (s.Pointer + 4) % 65536 } ∧
    (s.Registers.set d ((x * y) % 32768))[d]? = some ((x * y) % 32768) := by
  constructor
  · rw [step_fetch s 10 hop (by decide), exec_Mult,
      decode_dest_a_b s d ra rb x y _ hd hd8 ha hb hx hy, setRegister_ok _ _ _ (by exact hdl)]
    have : (x * y) % wordModulus % MaxValue = (x * y) % 32768 := by
      simp only [wordModulus, MaxValue]; omega
    simp only [this]
  · simp [hdl]

/-- Witness for C3: `mult r0, 300, 300`, whose product 90000 exceeds 65535. -/
theorem C3_mult_witness :
    step (New [10, 32768, 300, 300] []) = .ok () { New [10, 32768, 300, 300] [] with
      Registers := (New [10, 32768, 300, 300] []).Registers.set 0 ((300 * 300) % 32768)
      Pointer := (0 + 4) % 65536 } ∧
    ((New [10, 32768, 300, 300] []).Registers.set 0 ((300 * 300) % 32768))[0]? =
      some ((300 * 300) % 32768) :=
  C3_mult (New [10, 32768, 300, 300] []) 0 300 300 300 300 rfl rfl (by decide) (by decide)
    rfl rfl rfl rfl

/-- C4: when the cell at the pointer is opcode 14 (not), the next cell names
register d and the source cell resolves to x with x at most 32767, one step
succeeds and writes 32767 - x into register d. -/
theorem C4_not (s : VM) (d ra x : Nat)
    (hop : s.memory[s.Pointer]? = some 14)
    (hd : s.memory[(s.Pointer + 1) % 65536]? = some (32768 + d))
    (hd8 : d < 8) (hdl : d < s.Registers.length)
    (ha : s.memory[(s.Pointer + 2) % 65536]? = some ra)
    (hx : Dereference s ra = .ok x) (hx15 : x < 32768) :
    step s = .ok () { s with
      Registers := s.Registers.set d (32767 - x)
      Pointer := (s.Pointer + 3) % 65536 } ∧
    (s.Registers.set d (32767 - x))[d]? = some (32767 - x) := by
  constructor
  · rw [step_fetch s 14 hop (by decide), exec_Not,
      decode_dest_a s d ra x _ hd hd8 ha hx, setRegister_ok _ _ _ (by exact hdl),
      not_fifteen x hx15]
  · simp [hdl]

/-- Witness for C4: `not r2, 5` on the machine New builds. -/
theorem C4_not_witness :
    step (New [14, 32770, 5] []) = .ok () { New [14, 32770, 5] [] with
      Registers := (New [14, 32770, 5] []).Registers.set 2 (32767 - 5)
      Pointer := (0 + 3) % 65536 } ∧
    ((New [14, 32770, 5] []).Registers.set 2 (32767 - 5))[2]? = some (32767 - 5) :=
  C4_not (New [14, 32770, 5] []) 2 5 5 rfl rfl (by decide) (by decide) rfl rfl (by decide)

/-- Writing 0 and then, when the test holds, 1 into an existing register. -/
theorem setFlag_ok (s : VM) (d : Nat) (c : Prop) [Decidable c] (hdl : d < s.Registers.length) :
    ((setRegister s d 0).andThen fun _ v => if c then setRegister v d 1 else .ok () v) =
      .ok () { s with Registers := s.Registers.set d (if c then 1 else 0) } := by
  rw [setRegister_ok _ _ _ hdl, Res.andThen_ok]
  by_cases hc : c
  · simp only [hc, if_true]
    rw [setRegister_ok _ _ _ (by simpa using hdl)]
    simp [List.set_set]
  · simp only [hc, if_false]

/-- C5: when the cell at the pointer is opcode 4 (eq) or 5 (gt), the next cell
names register d and the two source cells resolve, in the state before the
step, to x and y, one step succeeds and writes a value r into register d (and
nothing else), where r is 0 or 1, and r is 1 exactly when x = y for eq and
exactly when x > y for gt. The sources are resolved in the state before the
write, so this holds also when register d is one of the sources. -/
theorem C5_eq_gt (s : VM) (op d ra rb x y : Nat)
    (hop : s.memory[s.Pointer]? = some op) (h45 : op = 4 ∨ op = 5)
    (hd : s.memory[(s.Pointer + 1) % 65536]? = some (32768 + d))
    (hd8 : d < 8) (hdl : d < s.Registers.length)
    (ha : s.memory[(s.Pointer + 2) % 65536]? = some ra)
    (hb : s.memory[(s.Pointer + 3) % 65536]? = some rb)
    (hx : Dereference s ra = .ok x) (hy : Dereference s rb = .ok y) :
    ∃ r : Nat,
      step s = .ok () { s with
        Registers := s.Registers.set d r
        Pointer := (s.Pointer + 4) % 65536 } ∧
      (s.Registers.set d r)[d]? = some r ∧
      (r = 0 ∨ r = 1) ∧
      (op = 4 → (r = 1 ↔ x = y)) ∧
      (op = 5 → (r = 1 ↔ x > y)) := by
  rcases h45 with rfl | rfl
  · refine ⟨if x = y then 1 else 0, ?_, by simp [hdl], ?_, ?_, ?_⟩
    · rw [step_fetch s 4 hop (by decide), exec_Eq,
        decode_dest_a_b s d ra rb x y _ hd hd8 ha hb hx hy, setFlag_ok _ _ _ (by exact hdl)]
    · by_cases h : x = y <;> simp [h]
    · intro _; by_cases h : x = y <;> simp [h]
    · intro h; exact absurd h (by decide)
  · refine ⟨if x > y then 1 else 0, ?_, by simp [hdl], ?_, ?_, ?_⟩
    · rw [step_fetch s 5 hop (by decide), exec_Gt,
        decode_dest_a_b s d ra rb x y _ hd hd8 ha hb hx hy, setFlag_ok _ _ _ (by exact hdl)]
    · by_cases h : x > y <;> simp [h]
    · intro h; exact absurd h (by decide)
    · intro _; by_cases h : x > y <;> simp [h]

/-- Witness for C5: `eq r0, r0, 0` on the machine New builds, where the
destination is also a source: register 0 holds 0 before and 1 after. -/
theorem C5_eq_gt_witness :
    ∃ r : Nat,
      step (New [4, 32768, 32768, 0] []) = .ok () { New [4, 32768, 32768, 0] [] with
        Registers := (New [4, 32768, 32768, 0] []).Registers.set 0 r
        Pointer := (0 + 4) % 65536 } ∧
      ((New [4, 32768, 32768, 0] []).Registers.set 0 r)[0]? = some r ∧
      (r = 0 ∨ r = 1) ∧
      (4 = 4 → (r = 1 ↔ 0 = 0)) ∧
      (4 = 5 → (r = 1 ↔ 0 > 0)) :=
  C5_eq_gt (New [4, 32768, 32768, 0] []) 4 0 32768 0 0 0 rfl (Or.inl rfl) rfl (by decide)
    (by decide) rfl rfl rfl rfl


/-! ## The scenario program -/

/-- C6, counterexample: started by New on the image 9,32768,32769,4,19,32768,0
(with empty standard input) the machine exits after three steps with register 0
holding 4 and with the character 4 printed before the halt text; so no run of
any length exits with register 0 holding 0 and a first printed character 0. -/
theorem C6_scenario_counterexample :
    Start 3 (New [9, 32768, 32769, 4, 19, 32768, 0] []) =
      .exit { memory := [9, 32768, 32769, 4, 19, 32768, 0]
              Registers := [4, 0, 0, 0, 0, 0, 0, 0]
              Stack := []
              Pointer := 7
              In := { pending := [] }
              Stdout := [4, 104, 97, 108, 116, 10] } ∧
    ¬ ∃ fuel t, Start fuel (New [9, 32768, 32769, 4, 19, 32768, 0] []) = .exit t ∧
      t.Registers[0]? = some 0 ∧ t.Stdout.head? = some 0 := by
  refine ⟨rfl, ?_⟩
  rintro ⟨fuel, t, hrun, hreg, -⟩
  match fuel, hrun with
  | 0, hrun => exact Res.noConfusion hrun
  | 1, hrun => exact Res.noConfusion hrun
  | 2, hrun => exact Res.noConfusion hrun
  | n + 3, hrun =>
    have h3 : Start (n + 3) (New [9, 32768, 32769, 4, 19, 32768, 0] []) =
        .exit { memory := [9, 32768, 32769, 4, 19, 32768, 0]
                Registers := [4, 0, 0, 0, 0, 0, 0, 0]
                Stack := []
                Pointer := 7
                In := { pending := [] }
                Stdout := [4, 104, 97, 108, 116, 10] } := rfl
    rw [h3] at hrun
    injection hrun with ht
    subst ht
    exact absurd hreg (by decide)

/-- C6, as amended: started by New on the image 9,32768,32769,4,19,32768,0, with
any standard input, the first step (opcode 9 is add) sets register 0 to the
content of register 1 plus the literal 4, that is 4; the second step prints the
one character with code 4; the third step is halt, which prints the text
"halt" and a newline and exits cleanly. Memory, the other registers, the stack
and the input are untouched. -/
theorem C6_scenario (stdin : List (Fin 256)) :
    Start 1 (New [9, 32768, 32769, 4, 19, 32768, 0] stdin) =
      .ok () { memory := [9, 32768, 32769, 4, 19, 32768, 0]
               Registers := [4, 0, 0, 0, 0, 0, 0, 0]
               Stack := []
               Pointer := 4
               In := { pending := stdin }
               Stdout := [] } ∧
    Start 2 (New [9, 32768, 32769, 4, 19, 32768, 0] stdin) =
      .ok () { memory := [9, 32768, 32769, 4, 19, 32768, 0]
               Registers := [4, 0, 0, 0, 0, 0, 0, 0]
               Stack := []
               Pointer := 6
               In := { pending := stdin }
               Stdout := [4] } ∧
    Start 3 (New [9, 32768, 32769, 4, 19, 32768, 0] stdin) =
      .exit { memory := [9, 32768, 32769, 4, 19, 32768, 0]
              Registers := [4, 0, 0, 0, 0, 0, 0, 0]
              Stack := []
              Pointer := 7
              In := { pending := stdin }
              Stdout := [4, 104, 97, 108, 116, 10] } := by
  have h1 : step (New [9, 32768, 32769, 4, 19, 32768, 0] stdin) =
      .ok () { memory := [9, 32768, 32769, 4, 19, 32768, 0]
               Registers := [4, 0, 0, 0, 0, 0, 0, 0]
               Stack := []
               Pointer := 4
               In := { pending := stdin }
               Stdout := [] } :=
    step_Add (New [9, 32768, 32769, 4, 19, 32768, 0] stdin) 0 32769 4 0 4 rfl rfl
      (by decide) (Nat.zero_lt_succ 7) rfl rfl rfl rfl
  have h2 : step { memory := [9, 32768, 32769, 4, 19, 32768, 0]
                   Registers := [4, 0, 0, 0, 0, 0, 0, 0]
                   Stack := []
                   Pointer := 4
                   In := { pending := stdin }
                   Stdout := [] } =
      .ok () { memory := [9, 32768, 32769, 4, 19, 32768, 0]
               Registers := [4, 0, 0, 0, 0, 0, 0, 0]
               Stack := []
               Pointer := 6
               In := { pending := stdin }
               Stdout := [4] } :=
    step_Out _ 32768 4 rfl rfl rfl
  have h3 : step { memory := [9, 32768, 32769, 4, 19, 32768, 0]
                   Registers := [4, 0, 0, 0, 0, 0, 0, 0]
                   Stack := []
                   Pointer := 6
                   In := { pending := stdin }
                   Stdout := [4] } =
      .exit { memory := [9, 32768, 32769, 4, 19, 32768, 0]
              Registers := [4, 0, 0, 0, 0, 0, 0, 0]
              Stack := []
              Pointer := 7
              In := { pending := stdin }
              Stdout := [4, 104, 97, 108, 116, 10] } :=
    step_Halt _ rfl
  refine ⟨?_, ?_, ?_⟩
  · rw [Start_succ_ok 0 _ _ h1, Start_zero]
  · rw [Start_succ_ok 1 _ _ h1, Start_succ_ok 0 _ _ h2, Start_zero]
  · rw [Start_succ_ok 2 _ _ h1, Start_succ_ok 1 _ _ h2, Start_succ_exit 0 _ _ h3]

/-! ## Destination operands -/

/-- C7: on a machine with 8 registers, when the cell at the pointer is the
opcode of a register-writing instruction (set 1, pop 3, eq 4, gt 5, add 9,
mult 10, mod 11, and 12, or 13, not 14, rmem 15, in 20) and the destination
cell after it holds a 16-bit value outside 32768..32775, one step panics and the
registers at the panic are those before the step: the wrapped index
raw - 32768 modulo 65536 is never below 8, so it selects no register. -/
theorem C7_invalid_destination (s : VM) (op raw : Nat) (h8 : s.Registers.length = 8)
    (hop : s.memory[s.Pointer]? = some op)
    (hops : op ∈ [1, 3, 4, 5, 9, 10, 11, 12, 13, 14, 15, 20])
    (hraw : s.memory[(s.Pointer + 1) % 65536]? = some raw) (h16 : raw < 65536)
    (hbad : raw < 32768 ∨ 32776 ≤ raw) :
    ∃ f t, step s = .fault f t ∧ t.Registers = s.Registers := by
  have ha : s.Registers.length ≤ (raw + 65536 - 32768) % 65536 := by omega
  have hlt : op < 32768 := by
    simp only [List.mem_cons, List.mem_singleton, List.not_mem_nil, or_false] at hops
    omega
  rw [step_fetch s op hop hlt]
  show FaultKeeps s.Registers _
  simp only [List.mem_cons, List.mem_singleton, List.not_mem_nil, or_false] at hops
  rcases hops with rfl | rfl | rfl | rfl | rfl | rfl | rfl | rfl | rfl | rfl | rfl | rfl
  · rw [exec_Set, ReadAsRegNum_ok _ raw hraw, Res.andThen_ok]
    refine faultKeeps_ReadValue _ _ _ rfl fun x t ht => ?_
    exact faultKeeps_setRegister _ _ _ _ ht ha
  · rw [exec_Pop, ReadAsRegNum_ok _ raw hraw, Res.andThen_ok]
    refine faultKeeps_popStack _ _ _ rfl fun x t ht => ?_
    exact faultKeeps_setRegister _ _ _ _ ht ha
  · rw [exec_Eq, ReadAsRegNum_ok _ raw hraw, Res.andThen_ok]
    refine faultKeeps_ReadValue _ _ _ rfl fun x t ht => ?_
    refine faultKeeps_ReadValue _ _ _ ht fun y u hu => ?_
    rw [setRegister_fault u _ 0 (by rw [hu]; exact ha), Res.andThen_fault]
    exact faultKeeps_fault _ _ _ hu
  · rw [exec_Gt, ReadAsRegNum_ok _ raw hraw, Res.andThen_ok]
    refine faultKeeps_ReadValue _ _ _ rfl fun x t ht => ?_
    refine faultKeeps_ReadValue _ _ _ ht fun y u hu => ?_
    rw [setRegister_fault u _ 0 (by rw [hu]; exact ha), Res.andThen_fault]
    exact faultKeeps_fault _ _ _ hu
  · rw [exec_Add, ReadAsRegNum_ok _ raw hraw, Res.andThen_ok]
    refine faultKeeps_ReadValue _ _ _ rfl fun x t ht => ?_
    refine faultKeeps_ReadValue _ _ _ ht fun y u hu => ?_
    exact faultKeeps_setRegister _ _ _ _ hu ha
  · rw [exec_Mult, ReadAsRegNum_ok _ raw hraw, Res.andThen_ok]
    refine faultKeeps_ReadValue _ _ _ rfl fun x t ht => ?_
    refine faultKeeps_ReadValue _ _ _ ht fun y u hu => ?_
    exact faultKeeps_setRegister _ _ _ _ hu ha
  · rw [exec_Mod, ReadAsRegNum_ok _ raw hraw, Res.andThen_ok]
    refine faultKeeps_ReadValue _ _ _ rfl fun x t ht => ?_
    refine faultKeeps_ReadValue _ _ _ ht fun y u hu => ?_
    by_cases hy : y = 0
    · rw [if_pos hy]; exact faultKeeps_fault _ _ _ hu
    · rw [if_neg hy]; exact faultKeeps_setRegister _ _ _ _ hu ha
  · rw [exec_And, ReadAsRegNum_ok _ raw hraw, Res.andThen_ok]
    refine faultKeeps_ReadValue _ _ _ rfl fun x t ht => ?_
    refine faultKeeps_ReadValue _ _ _ ht fun y u hu => ?_
    exact faultKeeps_setRegister _ _ _ _ hu ha
  · rw [exec_Or, ReadAsRegNum_ok _ raw hraw, Res.andThen_ok]
    refine faultKeeps_ReadValue _ _ _ rfl fun x t ht => ?_
    refine faultKeeps_ReadValue _ _ _ ht fun y u hu => ?_
    exact faultKeeps_setRegister _ _ _ _ hu ha
  · rw [exec_Not, ReadAsRegNum_ok _ raw hraw, Res.andThen_ok]
    refine faultKeeps_ReadValue _ _ _ rfl fun x t ht => ?_
    exact faultKeeps_setRegister _ _ _ _ ht ha
  · rw [exec_Rmem, ReadAsRegNum_ok _ raw hraw, Res.andThen_ok]
    refine faultKeeps_ReadValue _ _ _ rfl fun x t ht => ?_
    cases t.memory[x]? with
    | none => exact faultKeeps_fault _ _ _ ht
    | some y => exact faultKeeps_setRegister _ _ _ _ ht ha
  · rw [exec_In, ReadAsRegNum_ok _ raw hraw, Res.andThen_ok]
    rw [if_pos (Reader.Size_ne_zero _)]
    exact faultKeeps_setRegister _ _ _ _ rfl ha

/-- Witness for C7: `set` with the literal 5 as destination, on the machine New
builds: the step panics and the registers are unchanged. -/
theorem C7_invalid_destination_witness :
    ∃ f t, step (New [1, 5, 7] []) = .fault f t ∧
      t.Registers = (New [1, 5, 7] []).Registers :=
  C7_invalid_destination (New [1, 5, 7] []) 1 5 rfl rfl (by decide) rfl (by decide)
    (Or.inl (by decide))

/-! ## Unknown opcodes -/

/-- C8, counterexample: the cell 32768 at the pointer is a value outside 0..21,
yet the step does not panic: it is resolved through register 0, which holds 0,
and the machine halts cleanly. And where the cell is the literal 22, the panic
is raised with the pointer at 1, one past the cell at 0 that caused it. -/
theorem C8_unknown_opcode_counterexample :
    (New [32768] []).memory[(New [32768] []).Pointer]? = some 32768 ∧
    step (New [32768] []) =
      .exit { New [32768] [] with Pointer := 1, Stdout := [104, 97, 108, 116, 10] } ∧
    (New [22] []).Pointer = 0 ∧
    step (New [22] []) = .fault (.unknownInstruction 22) { New [22] [] with Pointer := 1 } := by
  decide

/-- C8, as amended: the opcode is the fetched cell after resolution. When the
cell at the pointer resolves (as a literal below 32768, or through the register
it names) to a value op of 22 or more, one step panics with the unknown
instruction op; when the cell cannot be resolved (32776 or more on a machine
with 8 registers), one step panics in the resolution. In both cases registers,
stack, memory, input and output are as before and only the pointer has moved,
by the one cell of the opcode fetch. -/
theorem C8_unknown_opcode (s : VM) (raw : Nat) (hcell : s.memory[s.Pointer]? = some raw) :
    (∀ op, Dereference s raw = .ok op → 22 ≤ op →
      step s = .fault (.unknownInstruction op) { s with Pointer := (s.Pointer + 1) % 65536 }) ∧
    (∀ f, Dereference s raw = .error f →
      step s = .fault f { s with Pointer := (s.Pointer + 1) % 65536 }) := by
  constructor
  · intro op hres h22
    rw [step, ReadValue_ok s raw op hcell hres, Res.andThen_ok, exec_unknown op _ h22]
  · intro f hres
    simp only [step, ReadValue, hcell, Dereference_setPointer, hres, Res.andThen_fault,
      wordModulus]

/-- Witness for C8: the literal opcode 22 on the machine New builds. -/
theorem C8_unknown_opcode_witness :
    step (New [22] []) =
      .fault (.unknownInstruction 22)
        { New [22] [] with Pointer := ((New [22] []).Pointer + 1) % 65536 } :=
  (C8_unknown_opcode (New [22] []) 22 rfl).1 22 rfl (by decide)

/-! ## The register range -/

/-- C9, as amended: for every image of 16-bit words and every standard input,
every state reached from New by iterations of the loop that neither panic nor
exit has 8 registers, each holding a 16-bit value; and each register holds a
value in 0..32767 in every state reached by iterations none of which dispatches
on pop (3) or rmem (15), the two branches that copy a raw 16-bit value (a
stacked word, a memory word) into a register. -/
theorem C9_register_range (image : List Nat) (stdin : List (Fin 256)) (s : VM)
    (himg : ∀ c ∈ image, c < 65536) :
    (ReachesAvoiding [] (New image stdin) s →
      s.Registers.length = 8 ∧ ∀ r ∈ s.Registers, r < 65536) ∧
    (ReachesAvoiding [3, 15] (New image stdin) s →
      s.Registers.length = 8 ∧ ∀ r ∈ s.Registers, r < 32768) := by
  have h0 := New_bounded image stdin himg
  constructor
  · intro h
    have hb := reaches_bounded 65536 [] _ s (Or.inr rfl) (fun h => absurd h (by decide))
      (bounded_mono _ h0) h
    exact ⟨hb.1, hb.2.1⟩
  · intro h
    have hb := reaches_bounded 32768 [3, 15] _ s (Or.inl rfl)
      (fun _ => ⟨by decide, by decide⟩) h0 h
    exact ⟨hb.1, hb.2.1⟩

/-- Witness for C9: the state reached by the one step of `rmem r0, 1` on the
image 15,32768,1 has 8 registers with 16-bit values. -/
theorem C9_register_range_witness :
    (∀ c ∈ [15, 32768, 1], c < 65536) ∧
    ({ New [15, 32768, 1] [] with
        Registers := [32768, 0, 0, 0, 0, 0, 0, 0], Pointer := 3 }.Registers.length = 8 ∧
      ∀ r ∈ { New [15, 32768, 1] [] with
        Registers := [32768, 0, 0, 0, 0, 0, 0, 0], Pointer := 3 }.Registers, r < 65536) :=
  ⟨by decide,
    (C9_register_range [15, 32768, 1] []
      { New [15, 32768, 1] [] with Registers := [32768, 0, 0, 0, 0, 0, 0, 0], Pointer := 3 }
      (by decide)).1
      (.tail (.refl _) (fun _ _ h => absurd h (List.not_mem_nil _)) (by decide))⟩

/-- C9, counterexample: on the image 15,32768,1 the single step `rmem r0, 1`
does not panic and copies the memory word 32768 into register 0, so a
reachable state has a register above 32767. And without any rmem: on the image
`jmp 4; pop r0; 32763 no-ops; call 2`, whose call ends at address 32768, the
return address 32769 is pushed by call and popped into register 0. -/
theorem C9_register_range_counterexample :
    (∃ s, ReachesAvoiding [] (New [15, 32768, 1] []) s ∧ ∃ r ∈ s.Registers, 32767 < r) ∧
    (∃ s, ReachesAvoiding [15] (New (sledImage 32763) []) s ∧
      ∃ r ∈ s.Registers, 32767 < r) :=
  ⟨⟨{ New [15, 32768, 1] [] with Registers := [32768, 0, 0, 0, 0, 0, 0, 0], Pointer := 3 },
      .tail (.refl _) (fun _ _ h => absurd h (List.not_mem_nil _)) (by decide),
      32768, by decide, by decide⟩,
    ⟨_, sled_pops_return_address 32763 [] (by decide), 32763 + 6,
      List.mem_cons_self _ _, by decide⟩⟩

/-! ## The stack -/

/-- C10: for every stack s and every list vs, pushing the elements of vs in
order with Push and then calling Pop as many times as vs is long succeeds each
time, returns the elements of vs in reverse order and leaves exactly s; in
particular pushing 1, 2, 3 returns 3, 2, 1. -/
theorem C10_stack_lifo (s : stack) (vs : List Nat) :
    popN vs.length (pushAll s vs) = some (vs.reverse, s) ∧
    popN 3 (pushAll s [1, 2, 3]) = some ([3, 2, 1], s) := by
  have key : ∀ ws : List Nat, popN ws.length (pushAll s ws) = some (ws.reverse, s) := by
    intro ws
    induction ws using List.reverseRecOn with
    | nil => rfl
    | append_singleton ws w ih =>
      rw [pushAll_append, List.length_append, List.length_singleton, popN, stack.Pop_Push]
      simp only [ih, List.reverse_append, List.reverse_singleton, List.singleton_append]
  exact ⟨key vs, key [1, 2, 3]⟩

/-! ## Control flow -/

/-- Decoding two source operands `a, b` after the opcode at `Pointer`. -/
theorem decode_a_b (s : VM) (ra rb x y : Nat) (k : Nat → Nat → VM → Res Unit)
    (ha : s.memory[(s.Pointer + 1) % 65536]? = some ra)
    (hb : s.memory[(s.Pointer + 2) % 65536]? = some rb)
    (hx : Dereference s ra = .ok x) (hy : Dereference s rb = .ok y) :
    ((ReadValue { s with Pointer := (s.Pointer + 1) % 65536 }).andThen fun a v =>
      (ReadValue v).andThen fun b v => k a b v) =
      k x y { s with Pointer := (s.Pointer + 3) % 65536 } := by
  simp only [ReadValue, wordModulus, Res.andThen_ok, pointer_succ,
    Nat.reduceAdd, ha, hb, Dereference_setPointer, hx, hy]

theorem popStack_ok (s : VM) (x : Nat) (rest : stack) (h : stack.Pop s.Stack = some (x, rest)) :
    popStack s = .ok x { s with Stack := rest } := by
  simp only [popStack, h]

theorem popStack_empty (s : VM) (h : s.Stack = []) :
    popStack s = .fault .indexOutOfRange s := by
  simp only [popStack, stack.Pop, h, List.getLast?_nil]

theorem step_Ret (s : VM) (x : Nat) (rest : stack)
    (hop : s.memory[s.Pointer]? = some 18)
    (hpop : stack.Pop s.Stack = some (x, rest)) :
    step s = .ok () { s with Stack := rest, Pointer := x } := by
  rw [step_fetch s 18 hop (by decide), exec_Ret, popStack_ok _ x rest (by exact hpop),
    Res.andThen_ok]

/-- C11: when the cell at the pointer p is opcode 17 (call), p + 2 does not wrap,
the operand cell at p + 1 resolves to the address a, and the cell at a holds
opcode 18 (ret), the first step pushes p + 2 and jumps to a, and the second
step pops it again: after the two steps the pointer is p + 2 and the stack,
the registers, memory, input and output are what they were before the call. -/
theorem C11_call_ret (s : VM) (ra a : Nat)
    (hop : s.memory[s.Pointer]? = some 17)
    (hnw : s.Pointer + 2 < 65536)
    (ha : s.memory[s.Pointer + 1]? = some ra)
    (hx : Dereference s ra = .ok a)
    (hret : s.memory[a]? = some 18) :
    step s = .ok () { s with Stack := stack.Push s.Stack (s.Pointer + 2), Pointer := a } ∧
    step { s with Stack := stack.Push s.Stack (s.Pointer + 2), Pointer := a } =
      .ok () { s with Pointer := s.Pointer + 2 } := by
  have e1 : (s.Pointer + 1) % 65536 = s.Pointer + 1 := by omega
  have e2 : (s.Pointer + 2) % 65536 = s.Pointer + 2 := by omega
  constructor
  · rw [step_Call s ra a hop (by rw [e1]; exact ha) hx, e2]
  · exact step_Ret _ (s.Pointer + 2) s.Stack hret (stack.Pop_Push s.Stack (s.Pointer + 2))

/-- Witness for C11: `call 3` at address 0 with `ret` at address 3, on the
machine New builds. -/
theorem C11_call_ret_witness :
    step (New [17, 3, 0, 18] []) =
      .ok () { New [17, 3, 0, 18] [] with
        Stack := stack.Push (New [17, 3, 0, 18] []).Stack ((New [17, 3, 0, 18] []).Pointer + 2)
        Pointer := 3 } ∧
    step { New [17, 3, 0, 18] [] with
        Stack := stack.Push (New [17, 3, 0, 18] []).Stack ((New [17, 3, 0, 18] []).Pointer + 2)
        Pointer := 3 } =
      .ok () { New [17, 3, 0, 18] [] with Pointer := (New [17, 3, 0, 18] []).Pointer + 2 } :=
  C11_call_ret (New [17, 3, 0, 18] []) 3 3 rfl (by decide) rfl rfl rfl

/-- C12: when the cell at the pointer is opcode 11 (mod), the next cell names
register d and the two source cells resolve to x and y: if y is 0 the step
panics with the integer division by zero, in a state whose registers (and
stack and memory) are those before the step, only the pointer having moved
over the four cells read; if y is not 0 the step succeeds and writes
x modulo y into register d. -/
theorem C12_mod (s : VM) (d ra rb x y : Nat)
    (hop : s.memory[s.Pointer]? = some 11)
    (hd : s.memory[(s.Pointer + 1) % 65536]? = some (32768 + d))
    (hd8 : d < 8) (hdl : d < s.Registers.length)
    (ha : s.memory[(s.Pointer + 2) % 65536]? = some ra)
    (hb : s.memory[(s.Pointer + 3) % 65536]? = some rb)
    (hx : Dereference s ra = .ok x) (hy : Dereference s rb = .ok y) :
    (y = 0 → step s = .fault .divideByZero { s with Pointer := (s.Pointer + 4) % 65536 }) ∧
    (y ≠ 0 →
      step s = .ok () { s with
        Registers := s.Registers.set d (x % y)
        Pointer := (s.Pointer + 4) % 65536 } ∧
      (s.Registers.set d (x % y))[d]? = some (x % y)) := by
  have hstep := step_fetch s 11 hop (by decide)
  rw [exec_Mod, decode_dest_a_b s d ra rb x y _ hd hd8 ha hb hx hy] at hstep
  constructor
  · intro h0
    rw [hstep, if_pos h0]
  · intro h0
    refine ⟨?_, by simp [hdl]⟩
    rw [hstep, if_neg h0, setRegister_ok _ _ _ (by exact hdl)]

/-- Witness for C12: `mod r0, 7, 0` on the machine New builds panics with the
division by zero. -/
theorem C12_mod_witness :
    step (New [11, 32768, 7, 0] []) =
      .fault .divideByZero
        { New [11, 32768, 7, 0] [] with
          Pointer := ((New [11, 32768, 7, 0] []).Pointer + 4) % 65536 } :=
  (C12_mod (New [11, 32768, 7, 0] []) 0 7 0 7 0 rfl rfl (by decide) (by decide)
    rfl rfl rfl rfl).1 rfl

/-- C13: when the cell at the pointer p is opcode 7 (jt) or 8 (jf) and the two
operand cells resolve to c and t, one step succeeds and changes the pointer
only: it becomes t when c is non-zero (jt) or zero (jf), and otherwise p + 3,
the sum being the pointer's own 16-bit addition (three increments, modulo
65536). Registers, stack, memory, input and output are unchanged. -/
theorem C13_jt_jf (s : VM) (op rc rt c t : Nat)
    (hop : s.memory[s.Pointer]? = some op) (h78 : op = 7 ∨ op = 8)
    (hc : s.memory[(s.Pointer + 1) % 65536]? = some rc)
    (ht : s.memory[(s.Pointer + 2) % 65536]? = some rt)
    (hxc : Dereference s rc = .ok c) (hxt : Dereference s rt = .ok t) :
    step s = .ok () { s with
      Pointer := if (op = 7 ∧ c ≠ 0) ∨ (op = 8 ∧ c = 0) then t
                 else (s.Pointer + 3) % 65536 } := by
  rcases h78 with rfl | rfl
  · rw [step_fetch s 7 hop (by decide), exec_Jt, decode_a_b s rc rt c t _ hc ht hxc hxt]
    by_cases h0 : c ≠ 0
    · rw [if_pos h0, if_pos (Or.inl ⟨rfl, h0⟩)]
    · rw [if_neg h0, if_neg (by simp [h0])]
  · rw [step_fetch s 8 hop (by decide), exec_Jf, decode_a_b s rc rt c t _ hc ht hxc hxt]
    by_cases h0 : c = 0
    · rw [if_pos h0, if_pos (Or.inr ⟨rfl, h0⟩)]
    · rw [if_neg h0, if_neg (by simp [h0])]

/-- Witness for C13: `jt 1, 5` on the machine New builds jumps to 5. -/
theorem C13_jt_jf_witness :
    step (New [7, 1, 5] []) = .ok () { New [7, 1, 5] [] with
      Pointer := if (7 = 7 ∧ 1 ≠ 0) ∨ (7 = 8 ∧ 1 = 0) then 5
                 else ((New [7, 1, 5] []).Pointer + 3) % 65536 } :=
  C13_jt_jf (New [7, 1, 5] []) 7 1 5 1 5 rfl (Or.inl rfl) rfl rfl rfl rfl

/-! ## Memory access -/

theorem setMemory_ok (s : VM) (a x : Nat) (h : a < s.memory.length) :
    setMemory s a x = .ok () { s with memory := s.memory.set a x } := by
  simp [setMemory, h]

theorem setMemory_fault (s : VM) (a x : Nat) (h : s.memory.length ≤ a) :
    setMemory s a x = .fault .indexOutOfRange s := by
  simp [setMemory, Nat.not_lt.mpr h]

theorem step_Wmem (s : VM) (ra rb a b : Nat)
    (hop : s.memory[s.Pointer]? = some 16)
    (ha : s.memory[(s.Pointer + 1) % 65536]? = some ra)
    (hb : s.memory[(s.Pointer + 2) % 65536]? = some rb)
    (hx : Dereference s ra = .ok a) (hy : Dereference s rb = .ok b) :
    step s = setMemory { s with Pointer := (s.Pointer + 3) % 65536 } a b := by
  rw [step_fetch s 16 hop (by decide), exec_Wmem, decode_a_b s ra rb a b _ ha hb hx hy]

theorem step_Rmem (s : VM) (d ra a : Nat)
    (hop : s.memory[s.Pointer]? = some 15)
    (hd : s.memory[(s.Pointer + 1) % 65536]? = some (32768 + d)) (hd8 : d < 8)
    (ha : s.memory[(s.Pointer + 2) % 65536]? = some ra)
    (hx : Dereference s ra = .ok a) :
    step s =
      match s.memory[a]? with
      | none => .fault .indexOutOfRange { s with Pointer := (s.Pointer + 3) % 65536 }
      | some x => setRegister { s with Pointer := (s.Pointer + 3) % 65536 } d x := by
  rw [step_fetch s 15 hop (by decide), exec_Rmem, decode_dest_a s d ra a _ hd hd8 ha hx]

theorem Dereference_setMemory (s : VM) (m : List Nat) (p v : Nat) :
    Dereference { s with memory := m, Pointer := p } v = Dereference s v := rfl

/-- C20: when the six cells from the pointer p hold `wmem addr, src` followed by
`rmem dest, addr2`, the destination cell names register d, addr and addr2
resolve to the same address A inside memory, src resolves to b, and A is none
of the three cells p + 3, p + 4, p + 5 of the rmem instruction, then the first
step stores b at A and the second step reads it back: after the two steps
register d holds b and the pointer is p + 6 (in the pointer's 16-bit addition);
nothing else has changed but the cell A. That the wmem leaves the resolution of
addr2 alone need not be assumed: it writes no register and not the cell p + 5. -/
theorem C20_wmem_rmem (s : VM) (ra rb ra2 d A b : Nat)
    (h0 : s.memory[s.Pointer]? = some 16)
    (h1 : s.memory[(s.Pointer + 1) % 65536]? = some ra)
    (h2 : s.memory[(s.Pointer + 2) % 65536]? = some rb)
    (h3 : s.memory[(s.Pointer + 3) % 65536]? = some 15)
    (h4 : s.memory[(s.Pointer + 4) % 65536]? = some (32768 + d))
    (h5 : s.memory[(s.Pointer + 5) % 65536]? = some ra2)
    (hd8 : d < 8) (hdl : d < s.Registers.length)
    (hA : Dereference s ra = .ok A) (hb : Dereference s rb = .ok b)
    (hA2 : Dereference s ra2 = .ok A)
    (hin : A < s.memory.length)
    (hn3 : A ≠ (s.Pointer + 3) % 65536) (hn4 : A ≠ (s.Pointer + 4) % 65536)
    (hn5 : A ≠ (s.Pointer + 5) % 65536) :
    step s = .ok () { s with
      memory := s.memory.set A b
      Pointer := (s.Pointer + 3) % 65536 } ∧
    step { s with memory := s.memory.set A b, Pointer := (s.Pointer + 3) % 65536 } =
      .ok () { s with
        memory := s.memory.set A b
        Registers := s.Registers.set d b
        Pointer := (s.Pointer + 6) % 65536 } ∧
    (s.Registers.set d b)[d]? = some b := by
  have e4 : ((s.Pointer + 3) % 65536 + 1) % 65536 = (s.Pointer + 4) % 65536 := by omega
  have e5 : ((s.Pointer + 3) % 65536 + 2) % 65536 = (s.Pointer + 5) % 65536 := by omega
  have e6 : ((s.Pointer + 3) % 65536 + 3) % 65536 = (s.Pointer + 6) % 65536 := by omega
  refine ⟨?_, ?_, by simp [hdl]⟩
  · rw [step_Wmem s ra rb A b h0 h1 h2 hA hb, setMemory_ok _ _ _ (by exact hin)]
  · have g3 : (s.memory.set A b)[(s.Pointer + 3) % 65536]? = some 15 := by
      rw [List.getElem?_set_ne hn3]; exact h3
    have g4 : (s.memory.set A b)[(s.Pointer + 4) % 65536]? = some (32768 + d) := by
      rw [List.getElem?_set_ne hn4]; exact h4
    have g5 : (s.memory.set A b)[(s.Pointer + 5) % 65536]? = some ra2 := by
      rw [List.getElem?_set_ne hn5]; exact h5
    have gA : (s.memory.set A b)[A]? = some b := by
      rw [List.getElem?_set_self hin]
    rw [step_Rmem { s with memory := s.memory.set A b, Pointer := (s.Pointer + 3) % 65536 }
      d ra2 A g3 (by rw [e4]; exact g4) hd8 (by rw [e5]; exact g5)
      ((Dereference_setMemory s _ _ ra2).trans hA2)]
    simp only [gA, e6]
    rw [setRegister_ok _ _ _ (by exact hdl)]


/-- Witness for C20: `wmem 6, 42; rmem r0, 6` on the machine New builds. -/
theorem C20_wmem_rmem_witness :
    step (New [16, 6, 42, 15, 32768, 6, 0] []) =
      .ok () { New [16, 6, 42, 15, 32768, 6, 0] [] with
        memory := (New [16, 6, 42, 15, 32768, 6, 0] []).memory.set 6 42
        Pointer := ((New [16, 6, 42, 15, 32768, 6, 0] []).Pointer + 3) % 65536 } ∧
    step { New [16, 6, 42, 15, 32768, 6, 0] [] with
        memory := (New [16, 6, 42, 15, 32768, 6, 0] []).memory.set 6 42
        Pointer := ((New [16, 6, 42, 15, 32768, 6, 0] []).Pointer + 3) % 65536 } =
      .ok () { New [16, 6, 42, 15, 32768, 6, 0] [] with
        memory := (New [16, 6, 42, 15, 32768, 6, 0] []).memory.set 6 42
        Registers := (New [16, 6, 42, 15, 32768, 6, 0] []).Registers.set 0 42
        Pointer := ((New [16, 6, 42, 15, 32768, 6, 0] []).Pointer + 6) % 65536 } ∧
    ((New [16, 6, 42, 15, 32768, 6, 0] []).Registers.set 0 42)[0]? = some 42 :=
  C20_wmem_rmem (New [16, 6, 42, 15, 32768, 6, 0] []) 6 42 6 0 6 42 rfl rfl rfl rfl rfl rfl
    (by decide) (by decide) rfl rfl rfl (by decide) (by decide) (by decide) (by decide)

/-! ## Faults of the stack and of memory -/

/-- C15: on an empty stack, a step whose opcode cell is 3 (pop) or 18 (ret)
panics in Pop with an index out of range. The state at the panic is the state
before the step except for the pointer, which has moved over the cells fetched
so far (the opcode, and for pop the destination cell when there is one): no
register is written and the pointer takes no value from the stack. -/
theorem C15_stack_underflow (s : VM) (op : Nat) (hstack : s.Stack = [])
    (hop : s.memory[s.Pointer]? = some op) (h : op = 3 ∨ op = 18) :
    ∃ k, (k = 1 ∨ k = 2) ∧
      step s = .fault .indexOutOfRange { s with Pointer := (s.Pointer + k) % 65536 } := by
  rcases h with rfl | rfl
  · rw [step_fetch s 3 hop (by decide), exec_Pop]
    cases hd : s.memory[(s.Pointer + 1) % 65536]? with
    | none =>
      refine ⟨1, Or.inl rfl, ?_⟩
      simp only [ReadAsRegNum, hd, Res.andThen_fault]
    | some raw =>
      refine ⟨2, Or.inr rfl, ?_⟩
      rw [ReadAsRegNum_ok _ raw hd, Res.andThen_ok, popStack_empty _ (by exact hstack),
        Res.andThen_fault]
      simp only [pointer_succ, Nat.reduceAdd]
  · refine ⟨1, Or.inl rfl, ?_⟩
    rw [step_fetch s 18 hop (by decide), exec_Ret, popStack_empty _ (by exact hstack),
      Res.andThen_fault]

/-- Witness for C15: `pop r0` on the machine New builds, whose stack is empty. -/
theorem C15_stack_underflow_witness :
    ∃ k, (k = 1 ∨ k = 2) ∧
      step (New [3, 32768] []) =
        .fault .indexOutOfRange
          { New [3, 32768] [] with Pointer := ((New [3, 32768] []).Pointer + k) % 65536 } :=
  C15_stack_underflow (New [3, 32768] []) 3 rfl rfl (Or.inl rfl)

theorem ReadValue_out_of_memory (s : VM) (h : s.memory.length ≤ s.Pointer) :
    ReadValue s = .fault .indexOutOfRange s := by
  simp only [ReadValue, List.getElem?_eq_none h]

theorem ReadAsRegNum_out_of_memory (s : VM) (h : s.memory.length ≤ s.Pointer) :
    ReadAsRegNum s = .fault .indexOutOfRange s := by
  simp only [ReadAsRegNum, List.getElem?_eq_none h]

/-- Every instruction with operands panics in the fetch of its first operand
when that cell lies outside memory. -/
theorem first_operand_out_of_memory (s : VM) (op : Nat)
    (hop : s.memory[s.Pointer]? = some op) (h1 : 1 ≤ op) (h20 : op ≤ 20) (h18 : op ≠ 18)
    (hlen : s.memory.length ≤ (s.Pointer + 1) % 65536) :
    step s = .fault .indexOutOfRange { s with Pointer := (s.Pointer + 1) % 65536 } := by
  have hv := ReadValue_out_of_memory { s with Pointer := (s.Pointer + 1) % 65536 } hlen
  have hr := ReadAsRegNum_out_of_memory { s with Pointer := (s.Pointer + 1) % 65536 } hlen
  rw [step_fetch s op hop (by omega)]
  interval_cases op
  · rw [exec_Set, hr, Res.andThen_fault]
  · rw [exec_Push, hv, Res.andThen_fault]
  · rw [exec_Pop, hr, Res.andThen_fault]
  · rw [exec_Eq, hr, Res.andThen_fault]
  · rw [exec_Gt, hr, Res.andThen_fault]
  · rw [exec_Jmp, hv, Res.andThen_fault]
  · rw [exec_Jt, hv, Res.andThen_fault]
  · rw [exec_Jf, hv, Res.andThen_fault]
  · rw [exec_Add, hr, Res.andThen_fault]
  · rw [exec_Mult, hr, Res.andThen_fault]
  · rw [exec_Mod, hr, Res.andThen_fault]
  · rw [exec_And, hr, Res.andThen_fault]
  · rw [exec_Or, hr, Res.andThen_fault]
  · rw [exec_Not, hr, Res.andThen_fault]
  · rw [exec_Rmem, hr, Res.andThen_fault]
  · rw [exec_Wmem, hv, Res.andThen_fault]
  · rw [exec_Call, hv, Res.andThen_fault]
  · exact absurd rfl h18
  · rw [exec_Out, hv, Res.andThen_fault]
  · rw [exec_In, hr, Res.andThen_fault]

/-- C16: with N the length of memory, `rmem dest, addr` and `wmem addr, src`
whose address resolves to N or more panic with an index out of range, in a
state whose registers, memory and stack are those before the step (only the
pointer has moved over the three cells read); a fetch with the pointer at N or
more panics, be it ReadValue, ReadAsRegNum or the opcode fetch of a whole step;
and an instruction whose first operand cell lies at N or more panics in the
fetch of that operand. -/
theorem C16_out_of_bounds (s : VM) :
    (∀ raw ra a, s.memory[s.Pointer]? = some 15 →
      s.memory[(s.Pointer + 1) % 65536]? = some raw →
      s.memory[(s.Pointer + 2) % 65536]? = some ra →
      Dereference s ra = .ok a → s.memory.length ≤ a →
      step s = .fault .indexOutOfRange { s with Pointer := (s.Pointer + 3) % 65536 }) ∧
    (∀ ra rb a b, s.memory[s.Pointer]? = some 16 →
      s.memory[(s.Pointer + 1) % 65536]? = some ra →
      s.memory[(s.Pointer + 2) % 65536]? = some rb →
      Dereference s ra = .ok a → Dereference s rb = .ok b → s.memory.length ≤ a →
      step s = .fault .indexOutOfRange { s with Pointer := (s.Pointer + 3) % 65536 }) ∧
    (s.memory.length ≤ s.Pointer →
      ReadValue s = .fault .indexOutOfRange s ∧
      ReadAsRegNum s = .fault .indexOutOfRange s ∧
      step s = .fault .indexOutOfRange s) ∧
    (∀ op, s.memory[s.Pointer]? = some op → 1 ≤ op → op ≤ 20 → op ≠ 18 →
      s.memory.length ≤ (s.Pointer + 1) % 65536 →
      step s = .fault .indexOutOfRange { s with Pointer := (s.Pointer + 1) % 65536 }) := by
  refine ⟨?_, ?_, ?_, fun op hop h1 h20 h18 hlen =>
    first_operand_out_of_memory s op hop h1 h20 h18 hlen⟩
  · intro raw ra a hop hd ha hx hlen
    rw [step_fetch s 15 hop (by decide), exec_Rmem, ReadAsRegNum_ok _ raw hd, Res.andThen_ok]
    simp only [ReadValue, wordModulus, pointer_succ, Nat.reduceAdd, ha, Dereference_setPointer,
      hx, Res.andThen_ok, List.getElem?_eq_none hlen]
  · intro ra rb a b hop ha hb hx hy hlen
    rw [step_Wmem s ra rb a b hop ha hb hx hy, setMemory_fault _ _ _ (by exact hlen)]
  · intro h
    refine ⟨ReadValue_out_of_memory s h, ReadAsRegNum_out_of_memory s h, ?_⟩
    rw [step, ReadValue_out_of_memory s h, Res.andThen_fault]

/-- Witness for C16: `rmem r0, 100` on a three-word memory panics, with
registers and memory as before. -/
theorem C16_out_of_bounds_witness :
    step (New [15, 32768, 100] []) =
      .fault .indexOutOfRange
        { New [15, 32768, 100] [] with Pointer := ((New [15, 32768, 100] []).Pointer + 3) % 65536 } :=
  (C16_out_of_bounds (New [15, 32768, 100] [])).1 32768 100 100 rfl rfl rfl rfl (by decide)

/-! ## The memory frame -/

theorem step_of_fetch (s : VM) (op : Nat) (h : fetch s = some op) :
    step s = exec op { s with Pointer := (s.Pointer + 1) % 65536 } := by
  unfold fetch ReadValue at h
  unfold step ReadValue
  cases hm : s.memory[s.Pointer]? with
  | none => rw [hm] at h; exact Option.noConfusion h
  | some val =>
    rw [hm] at h
    simp only at h ⊢
    cases hd : Dereference { s with Pointer := (s.Pointer + 1) % wordModulus } val with
    | error f => rw [hd] at h; exact Option.noConfusion h
    | ok x =>
      rw [hd] at h
      injection h with h
      subst h
      rfl

theorem step_of_fetch_none (s : VM) (h : fetch s = none) :
    (step s).state.memory = s.memory := by
  unfold fetch at h
  unfold step
  have hf := (ReadValue_frame s).2.2.1
  cases hr : ReadValue s with
  | ok x t => rw [hr] at h; exact Option.noConfusion h
  | exit t => rw [hr] at hf; exact hf
  | fault f t => rw [hr] at hf; exact hf

theorem mem_ReadValue {α : Type} (m : List Nat) (s : VM) (k : Nat → VM → Res α)
    (hs : s.memory = m) (hk : ∀ x t, t.memory = m → (k x t).state.memory = m) :
    ((ReadValue s).andThen k).state.memory = m := by
  unfold ReadValue
  cases s.memory[s.Pointer]? with
  | none => exact hs
  | some val =>
    simp only
    cases Dereference { s with Pointer := (s.Pointer + 1) % wordModulus } val with
    | error f => exact hs
    | ok x => exact hk x _ hs

theorem mem_ReadAsRegNum {α : Type} (m : List Nat) (s : VM) (k : Nat → VM → Res α)
    (hs : s.memory = m) (hk : ∀ x t, t.memory = m → (k x t).state.memory = m) :
    ((ReadAsRegNum s).andThen k).state.memory = m := by
  unfold ReadAsRegNum
  cases s.memory[s.Pointer]? with
  | none => exact hs
  | some val => exact hk _ _ hs

theorem mem_popStack {α : Type} (m : List Nat) (s : VM) (k : Nat → VM → Res α)
    (hs : s.memory = m) (hk : ∀ x t, t.memory = m → (k x t).state.memory = m) :
    ((popStack s).andThen k).state.memory = m := by
  unfold popStack
  cases stack.Pop s.Stack with
  | none => exact hs
  | some p => exact hk p.1 _ hs

theorem mem_setRegister (m : List Nat) (s : VM) (a x : Nat) (hs : s.memory = m) :
    (setRegister s a x).state.memory = m := by
  unfold setRegister
  by_cases ha : a < s.Registers.length
  · rw [if_pos ha]; exact hs
  · rw [if_neg ha]; exact hs

theorem mem_setRegister_andThen (m : List Nat) (s : VM) (a x : Nat) (k : Unit → VM → Res Unit)
    (hs : s.memory = m) (hk : ∀ t, t.memory = m → (k () t).state.memory = m) :
    ((setRegister s a x).andThen k).state.memory = m := by
  unfold setRegister
  by_cases ha : a < s.Registers.length
  · rw [if_pos ha]; exact hk _ hs
  · rw [if_neg ha]; exact hs

/-- No branch of the switch but `wmem` touches memory, whatever its outcome. -/
theorem exec_memory (op : Nat) (s : VM) (h16 : op ≠ 16) :
    (exec op s).state.memory = s.memory := by
  by_cases h22 : 22 ≤ op
  · rw [exec_unknown op s h22]; rfl
  · have hlt : op < 22 := by omega
    interval_cases op
    · rw [exec_Halt]; rfl
    · rw [exec_Set]
      exact mem_ReadAsRegNum _ s _ rfl fun a t ht =>
        mem_ReadValue _ t _ ht fun x u hu => mem_setRegister _ u a x hu
    · rw [exec_Push]
      exact mem_ReadValue _ s _ rfl fun x t ht => ht
    · rw [exec_Pop]
      exact mem_ReadAsRegNum _ s _ rfl fun a t ht =>
        mem_popStack _ t _ ht fun x u hu => mem_setRegister _ u a x hu
    · rw [exec_Eq]
      exact mem_ReadAsRegNum _ s _ rfl fun a t ht =>
        mem_ReadValue _ t _ ht fun x u hu =>
        mem_ReadValue _ u _ hu fun y w hw =>
        mem_setRegister_andThen _ w a 0 _ hw fun w1 hw1 => by
          by_cases hxy : x = y
          · rw [if_pos hxy]; exact mem_setRegister _ w1 a 1 hw1
          · rw [if_neg hxy]; exact hw1
    · rw [exec_Gt]
      exact mem_ReadAsRegNum _ s _ rfl fun a t ht =>
        mem_ReadValue _ t _ ht fun x u hu =>
        mem_ReadValue _ u _ hu fun y w hw =>
        mem_setRegister_andThen _ w a 0 _ hw fun w1 hw1 => by
          by_cases hxy : x > y
          · rw [if_pos hxy]; exact mem_setRegister _ w1 a 1 hw1
          · rw [if_neg hxy]; exact hw1
    · rw [exec_Jmp]
      exact mem_ReadValue _ s _ rfl fun x t ht => ht
    · rw [exec_Jt]
      exact mem_ReadValue _ s _ rfl fun x t ht =>
        mem_ReadValue _ t _ ht fun y u hu => by
          by_cases hx0 : x ≠ 0
          · rw [if_pos hx0]; exact hu
          · rw [if_neg hx0]; exact hu
    · rw [exec_Jf]
      exact mem_ReadValue _ s _ rfl fun x t ht =>
        mem_ReadValue _ t _ ht fun y u hu => by
          by_cases hx0 : x = 0
          · rw [if_pos hx0]; exact hu
          · rw [if_neg hx0]; exact hu
    · rw [exec_Add]
      exact mem_ReadAsRegNum _ s _ rfl fun a t ht =>
        mem_ReadValue _ t _ ht fun x u hu =>
        mem_ReadValue _ u _ hu fun y w hw => mem_setRegister _ w a _ hw
    · rw [exec_Mult]
      exact mem_ReadAsRegNum _ s _ rfl fun a t ht =>
        mem_ReadValue _ t _ ht fun x u hu =>
        mem_ReadValue _ u _ hu fun y w hw => mem_setRegister _ w a _ hw
    · rw [exec_Mod]
      exact mem_ReadAsRegNum _ s _ rfl fun a t ht =>
        mem_ReadValue _ t _ ht fun x u hu =>
        mem_ReadValue _ u _ hu fun y w hw => by
          by_cases hy0 : y = 0
          · rw [if_pos hy0]; exact hw
          · rw [if_neg hy0]; exact mem_setRegister _ w a _ hw
    · rw [exec_And]
      exact mem_ReadAsRegNum _ s _ rfl fun a t ht =>
        mem_ReadValue _ t _ ht fun x u hu =>
        mem_ReadValue _ u _ hu fun y w hw => mem_setRegister _ w a _ hw
    · rw [exec_Or]
      exact mem_ReadAsRegNum _ s _ rfl fun a t ht =>
        mem_ReadValue _ t _ ht fun x u hu =>
        mem_ReadValue _ u _ hu fun y w hw => mem_setRegister _ w a _ hw
    · rw [exec_Not]
      exact mem_ReadAsRegNum _ s _ rfl fun a t ht =>
        mem_ReadValue _ t _ ht fun x u hu => mem_setRegister _ u a _ hu
    · rw [exec_Rmem]
      exact mem_ReadAsRegNum _ s _ rfl fun a t ht =>
        mem_ReadValue _ t _ ht fun x u hu => by
          cases u.memory[x]? with
          | none => exact hu
          | some y => exact mem_setRegister _ u a y hu
    · exact absurd rfl h16
    · rw [exec_Call]
      exact mem_ReadValue _ s _ rfl fun x t ht => ht
    · rw [exec_Ret]
      exact mem_popStack _ s _ rfl fun x t ht => ht
    · rw [exec_Out]
      exact mem_ReadValue _ s _ rfl fun x t ht => ht
    · rw [exec_In]
      exact mem_ReadAsRegNum _ s _ rfl fun a t ht => by
        rw [if_pos (Reader.Size_ne_zero _)]
        exact mem_setRegister _ _ a _ ht
    · rw [exec_Noop]; rfl

theorem setMemory_memory (s : VM) (a x : Nat) :
    (setMemory s a x).state.memory = s.memory.set a x := by
  unfold setMemory
  by_cases ha : a < s.memory.length
  · rw [if_pos ha]; rfl
  · rw [if_neg ha]
    exact (List.set_eq_of_length_le (Nat.le_of_not_lt ha)).symm

/-- The `wmem` branch leaves memory alone or sets one cell of it. -/
theorem exec_Wmem_memory (s : VM) :
    (exec 16 s).state.memory = s.memory ∨
      ∃ a b, (exec 16 s).state.memory = s.memory.set a b := by
  rw [exec_Wmem]
  unfold ReadValue
  cases s.memory[s.Pointer]? with
  | none => exact Or.inl rfl
  | some val =>
    simp only
    cases Dereference { s with Pointer := (s.Pointer + 1) % wordModulus } val with
    | error f => exact Or.inl rfl
    | ok a =>
      rw [Res.andThen_ok]
      cases hm : ({ s with Pointer := (s.Pointer + 1) % wordModulus } : VM).memory[
          ({ s with Pointer := (s.Pointer + 1) % wordModulus } : VM).Pointer]? with
      | none => simp only [hm]; exact Or.inl rfl
      | some val2 =>
        simp only [hm]
        cases Dereference { s with Pointer := ((s.Pointer + 1) % wordModulus + 1) % wordModulus }
            val2 with
        | error f => exact Or.inl rfl
        | ok b =>
          rw [Res.andThen_ok]
          exact Or.inr ⟨a, b, setMemory_memory _ a b⟩

/-- C14: for every state, whatever the outcome of the step (it returns, exits or
panics): when the opcode dispatched on is not 16 (wmem), or no opcode could be
fetched, memory after the step is memory before it; when it is 16 and the two
operand cells resolve to a and b, memory after the step is memory before it
with the cell a set to b (which changes nothing when a lies outside memory,
where the step panics), so the cell a holds b when it exists and every other
cell is unchanged; and in every case memory differs from before in at most one
cell and has the same length. -/
theorem C14_memory_frame (s : VM) :
    (fetch s ≠ some 16 → (step s).state.memory = s.memory) ∧
    (fetch s = some 16 → ∀ ra rb a b,
      s.memory[(s.Pointer + 1) % 65536]? = some ra →
      s.memory[(s.Pointer + 2) % 65536]? = some rb →
      Dereference s ra = .ok a → Dereference s rb = .ok b →
      (step s).state.memory = s.memory.set a b ∧
      (a < s.memory.length → (step s).state.memory[a]? = some b) ∧
      ∀ i, i ≠ a → (step s).state.memory[i]? = s.memory[i]?) ∧
    ((step s).state.memory = s.memory ∨
      ∃ a b, (step s).state.memory = s.memory.set a b) ∧
    (step s).state.memory.length = s.memory.length := by
  have hgen : (step s).state.memory = s.memory ∨
      ∃ a b, (step s).state.memory = s.memory.set a b := by
    cases hf : fetch s with
    | none => exact Or.inl (step_of_fetch_none s hf)
    | some op =>
      rw [step_of_fetch s op hf]
      by_cases h16 : op = 16
      · subst h16; exact exec_Wmem_memory _
      · exact Or.inl (exec_memory op _ h16)
  refine ⟨?_, ?_, hgen, ?_⟩
  · intro hne
    cases hf : fetch s with
    | none => exact step_of_fetch_none s hf
    | some op =>
      rw [step_of_fetch s op hf]
      exact exec_memory op _ (fun h => hne (by rw [hf, h]))
  · intro hf ra rb a b ha hb hx hy
    have hm : (step s).state.memory = s.memory.set a b := by
      rw [step_of_fetch s 16 hf, exec_Wmem, decode_a_b s ra rb a b _ ha hb hx hy]
      exact setMemory_memory _ a b
    refine ⟨hm, fun hlt => ?_, fun i hi => ?_⟩
    · rw [hm, List.getElem?_set_self hlt]
    · rw [hm, List.getElem?_set_ne (Ne.symm hi)]
  · rcases hgen with h | ⟨a, b, h⟩
    · rw [h]
    · rw [h, List.length_set]

/-- Witness for C14: `wmem 3, 9` on the machine New builds sets cell 3 to 9. -/
theorem C14_memory_frame_witness :
    (step (New [16, 3, 9, 0] [])).state.memory = (New [16, 3, 9, 0] []).memory.set 3 9 :=
  ((C14_memory_frame (New [16, 3, 9, 0] [])).2.1 (by decide) 3 9 3 9 rfl rfl rfl rfl).1

/-! ## Input -/

/-- The `in` branch with a destination that names register `d`: the guard on
`Size` always holds, so one byte is read, byte 0 at end of input, and written
into the register. -/
theorem step_In (s : VM) (d : Nat)
    (hop : s.memory[s.Pointer]? = some 20)
    (hd : s.memory[(s.Pointer + 1) % 65536]? = some (32768 + d))
    (hd8 : d < 8) (hdl : d < s.Registers.length) :
    step s = .ok () { s with
      Registers := s.Registers.set d (Reader.ReadByte s.In).1.val
      Pointer := (s.Pointer + 2) % 65536
      In := (Reader.ReadByte s.In).2 } := by
  have hreg : (32768 + d + 65536 - 32768) % 65536 = d := by omega
  rw [step_fetch s 20 hop (by decide), exec_In, ReadAsRegNum_ok _ _ hd, hreg, Res.andThen_ok,
    if_pos (Reader.Size_ne_zero _)]
  simp only [pointer_succ, Nat.reduceAdd]
  rw [setRegister_ok _ _ _ (by exact hdl)]

/-- C17, the code at the failing input: on the image `set r0, 5; in r0` with
standard input at its end, the first step puts 5 into register 0 and the
second step, `in r0`, does not panic but overwrites it with 0, where the claim
has the register keep 5; with the one byte 65 on standard input the same step
stores 65, as the claim says. -/
theorem C17_in_end_of_input :
    Start 1 (New [1, 32768, 5, 20, 32768] []) =
      .ok () { memory := [1, 32768, 5, 20, 32768]
               Registers := [5, 0, 0, 0, 0, 0, 0, 0]
               Stack := []
               Pointer := 3
               In := { pending := [] }
               Stdout := [] } ∧
    Start 2 (New [1, 32768, 5, 20, 32768] []) =
      .ok () { memory := [1, 32768, 5, 20, 32768]
               Registers := [0, 0, 0, 0, 0, 0, 0, 0]
               Stack := []
               Pointer := 5
               In := { pending := [] }
               Stdout := [] } ∧
    Start 2 (New [1, 32768, 5, 20, 32768] [65]) =
      .ok () { memory := [1, 32768, 5, 20, 32768]
               Registers := [65, 0, 0, 0, 0, 0, 0, 0]
               Stack := []
               Pointer := 5
               In := { pending := [] }
               Stdout := [] } := by
  decide

/-! ## The program image -/

theorem littleEndianUint16_eq (b0 b1 : Fin 256) :
    littleEndianUint16 b0 b1 = b0.val + 256 * b1.val := by
  unfold littleEndianUint16
  have h := Nat.mul_add_lt_is_or (i := 8) (b := b0.val) b0.isLt b1.val
  rw [Nat.shiftLeft_eq, Nat.lor_comm, Nat.mul_comm, ← h]
  omega

theorem loadChallengeLoop_length : ∀ (n : Nat) (data : List (Fin 256)) (memory : List Nat),
    data.length ≤ n →
    (loadChallengeLoop data memory).length = memory.length + data.length / 2
  | _, [], memory, _ => by simp [loadChallengeLoop]
  | _, [_], memory, _ => by simp [loadChallengeLoop]
  | 0, _ :: _ :: _, _, h => by simp at h
  | n + 1, b0 :: b1 :: data, memory, h => by
    have hl : (b0 :: b1 :: data).length = data.length + 2 := rfl
    rw [loadChallengeLoop, loadChallengeLoop_length n data _ (by rw [hl] at h; omega), hl,
      List.length_append, List.length_singleton]
    omega

/-- The loop keeps the words it has. -/
theorem loadChallengeLoop_prefix : ∀ (n : Nat) (data : List (Fin 256)) (memory : List Nat)
    (i : Nat), data.length ≤ n → i < memory.length →
    (loadChallengeLoop data memory)[i]? = memory[i]?
  | _, [], memory, i, _, _ => by simp [loadChallengeLoop]
  | _, [_], memory, i, _, _ => by simp [loadChallengeLoop]
  | 0, _ :: _ :: _, _, _, h, _ => by simp at h
  | n + 1, b0 :: b1 :: data, memory, i, h, hi => by
    rw [loadChallengeLoop, loadChallengeLoop_prefix n data _ i (by simp at h; omega)
      (by simp; omega)]
    exact List.getElem?_append_left hi

theorem loadChallengeLoop_word : ∀ (n : Nat) (data : List (Fin 256)) (memory : List Nat)
    (i : Nat), data.length ≤ n → i < data.length / 2 →
    ∃ lo hi : Fin 256, data[2 * i]? = some lo ∧ data[2 * i + 1]? = some hi ∧
      (loadChallengeLoop data memory)[memory.length + i]? = some (lo.val + 256 * hi.val)
  | _, [], _, i, _, hi => absurd hi (Nat.not_lt_zero i)
  | _, [b], _, i, _, hi => by
    have e : [b].length / 2 = 0 := by rw [List.length_singleton]
    rw [e] at hi
    exact absurd hi (Nat.not_lt_zero i)
  | 0, _ :: _ :: _, _, _, h, _ => by simp at h
  | n + 1, b0 :: b1 :: data, memory, i, h, hi => by
    have hn : data.length ≤ n := by simp at h; omega
    rw [loadChallengeLoop]
    cases i with
    | zero =>
      refine ⟨b0, b1, rfl, by simp, ?_⟩
      rw [Nat.add_zero, loadChallengeLoop_prefix n data _ memory.length hn (by simp)]
      rw [List.getElem?_append_right (Nat.le_refl _), Nat.sub_self, littleEndianUint16_eq]
      rfl
    | succ j =>
      have hj : j < data.length / 2 := by
        simp only [List.length_cons] at hi
        omega
      obtain ⟨lo, hi', h1, h2, h3⟩ := loadChallengeLoop_word n data
        (memory ++ [littleEndianUint16 b0 b1]) j hn hj
      refine ⟨lo, hi', ?_, ?_, ?_⟩
      · have e : 2 * (j + 1) = (2 * j) + 1 + 1 := by omega
        rw [e]; simpa using h1
      · have e : 2 * (j + 1) + 1 = (2 * j + 1) + 1 + 1 := by omega
        rw [e]; simpa using h2
      · have e : (memory ++ [littleEndianUint16 b0 b1]).length + j = memory.length + (j + 1) := by
          simp only [List.length_append, List.length_singleton]; omega
        rw [← e]; exact h3

/-- C19: for every byte sequence bs, loadChallenge returns exactly
floor(len(bs) / 2) words, word i being bs[2i] + 256 * bs[2i+1], in the order of
the stream (so a trailing odd byte is dropped), and New takes this sequence
unchanged as the memory of the machine. -/
theorem C19_load_challenge (bs : List (Fin 256)) :
    (loadChallenge bs).length = bs.length / 2 ∧
    (∀ i, i < bs.length / 2 →
      ∃ lo hi : Fin 256, bs[2 * i]? = some lo ∧ bs[2 * i + 1]? = some hi ∧
        (loadChallenge bs)[i]? = some (lo.val + 256 * hi.val)) ∧
    (∀ stdin, (New (loadChallenge bs) stdin).memory = loadChallenge bs) := by
  refine ⟨?_, ?_, fun _ => rfl⟩
  · have h := loadChallengeLoop_length bs.length bs [] (Nat.le_refl _)
    simpa [loadChallenge] using h
  · intro i hi
    obtain ⟨lo, hi', h1, h2, h3⟩ := loadChallengeLoop_word bs.length bs [] i (Nat.le_refl _) hi
    exact ⟨lo, hi', h1, h2, by simpa [loadChallenge] using h3⟩

end Synacor
